import Mathlib

/-!
Verification development for the book2course document-to-course pipeline
(`backend/services`: `toc_extractor.py`, `pdf_processor.py`, `ai_generator.py`,
`queue_worker.py`).

The Python sources are shallowly embedded: Python strings are `List Char`,
Python JSON values are the inductive `Json`, Python dicts are ordered
association lists with Python's insertion-order update semantics, and the
external completion service is an oracle `Nat → List Char` giving the text of
the k-th model response of a pipeline run.  Functions that can raise an
uncaught Python exception are embedded with `Except Unit`.  The standard
library routine `json.loads` is modelled by an executable recursive-descent
parser `jsonLoads` covering the JSON forms the pipeline exchanges (objects,
arrays, strings with standard escapes, integer numerals, literals).
Construction of prompt strings that are sent to the model is not modelled:
the oracle determines every response, so prompt text is never observable.
-/

namespace B2C

/-- Python strings are modelled as lists of characters. -/
abbrev Str := List Char

/-! ## Python string primitives -/

/-- Whitespace as recognised by Python's `str.strip`. -/
def pySpace (c : Char) : Bool :=
  c = ' ' || c = '\t' || c = '\n' || c = '\r' || c = '\x0b' || c = '\x0c'

/-- Python `str.strip()`: drop leading and trailing whitespace. -/
def pyStrip (s : Str) : Str :=
  ((s.dropWhile pySpace).reverse.dropWhile pySpace).reverse

/-- Python `str.lower()` (ASCII range, which is all the code compares). -/
def pyLower (s : Str) : Str := s.map Char.toLower

/-- One splitting step of Python `str.split(sep)` for a non-empty separator
`c0 :: sepRest`: scan left to right, cutting at each non-overlapping
occurrence of the separator.  The fuel (at least the remaining length)
makes the recursion structural. -/
def pySplitGo (c0 : Char) (sepRest : Str) : Nat → Str → Str → List Str
  | _, [], acc => [acc.reverse]
  | 0, s, acc => [acc.reverse ++ s]
  | fuel + 1, c :: rest, acc =>
    if c = c0 && sepRest.isPrefixOf rest then
      acc.reverse :: pySplitGo c0 sepRest fuel (rest.drop sepRest.length) []
    else
      pySplitGo c0 sepRest fuel rest (c :: acc)

/-- Python `s.split(sep)` for a non-empty separator. -/
def pySplit (sep : Str) (s : Str) : List Str :=
  match sep with
  | [] => [s]
  | c0 :: sepRest => pySplitGo c0 sepRest s.length s []

/-- Python `sep in s` (substring containment), expressed through `split`
exactly as the code's `in` tests behave. -/
def pyContains (sep : Str) (s : Str) : Bool :=
  1 < (pySplit sep s).length

/-- Python `s.rfind(needle)`: start index of the last occurrence. -/
def pyRfindGo (needle : Str) : Str → Nat → Option Nat → Option Nat
  | [], _, best => best
  | c :: rest, i, best =>
    pyRfindGo needle rest (i + 1)
      (if needle.isPrefixOf (c :: rest) then some i else best)

/-- Python `s.rfind(needle)` as an `Option` (Python returns `-1` for `none`). -/
def pyRfind (s needle : Str) : Option Nat := pyRfindGo needle s 0 none

/-- Python whitespace-splitting `str.split()` (no argument): maximal runs of
non-whitespace characters. -/
def pySplitWs : Str → List Str
  | [] => []
  | c :: rest =>
    if pySpace c then pySplitWs rest
    else
      match pySplitWs rest with
      | [] => [[c]]
      | w :: ws => if pySpace (rest.headD ' ') then [c] :: w :: ws else (c :: w) :: ws

/-! ## Structure extractor: `toc_extractor.calculate_chapter_pages`

`calculate_chapter_pages` receives the list of TOC entries (each carrying its
1-indexed start page under the key `"page"`) together with the total page
count; the optional `_backmatter_start` value that the extraction functions
attach to the first entry of the list is passed here as an explicit
`Option Int` argument.  Only the page data participates in the computation,
so an entry is embedded as its page number. -/

/-- A TOC entry as consumed by `calculate_chapter_pages`: its `"page"` value. -/
structure TocEntry where
  page : Int
  deriving Repr, DecidableEq

/-- One element of the list returned by `calculate_chapter_pages`. -/
structure ChapterPage where
  start_page : Int
  end_page : Int
  page_count : Int
  deriving Repr, DecidableEq

/-- The sort key `lambda x: x.get("page", 1)` used by `sorted`. -/
def pageLE (a b : TocEntry) : Prop := a.page ≤ b.page

instance : DecidableRel pageLE := fun a b => inferInstanceAs (Decidable (a.page ≤ b.page))

instance : IsTotal TocEntry pageLE := ⟨fun a b => Int.le_total a.page b.page⟩

instance : IsTrans TocEntry pageLE := ⟨fun _ _ _ hab hbc => le_trans hab hbc⟩

/-- The loop body of `calculate_chapter_pages` over the sorted entry list.
For a non-final entry the end page is `next start - 1`; for the final entry it
is `backmatter_start - 1` when `backmatter_start` is truthy (non-`None`,
non-zero) and greater than the entry's start, else `total_pages`; in every
case the end page is clamped to at least the start page. -/
def calcPagesGo (bm : Option Int) (totalPages : Int) : List TocEntry → List ChapterPage
  | [] => []
  | [e] =>
    let rawEnd : Int :=
      match bm with
      | some b => if b ≠ 0 ∧ b > e.page then b - 1 else totalPages
      | none => totalPages
    [⟨e.page, max rawEnd e.page, max rawEnd e.page - e.page + 1⟩]
  | e :: e2 :: rest =>
    ⟨e.page, max (e2.page - 1) e.page, max (e2.page - 1) e.page - e.page + 1⟩ ::
      calcPagesGo bm totalPages (e2 :: rest)

/-- `toc_extractor.calculate_chapter_pages(chapters, total_pages)`:
sort the entries by page, then assign each entry its end page and page count.
`bm` is the `_backmatter_start` value attached to `chapters[0]` (if any),
which the code pops before sorting. -/
def calculate_chapter_pages (chapters : List TocEntry) (bm : Option Int)
    (totalPages : Int) : List ChapterPage :=
  calcPagesGo bm totalPages (chapters.insertionSort pageLE)

/-! ### C1 -/

theorem calcPagesGo_start_eq_page (bm : Option Int) (t : Int) :
    ∀ l : List TocEntry, (calcPagesGo bm t l).map ChapterPage.start_page = l.map TocEntry.page
  | [] => rfl
  | [_] => rfl
  | _ :: e2 :: rest => by
    simp only [calcPagesGo, List.map_cons, List.cons.injEq, true_and]
    exact calcPagesGo_start_eq_page bm t (e2 :: rest)

theorem calcPagesGo_bounds (bm : Option Int) (t : Int) :
    ∀ l : List TocEntry,
      l.Pairwise (fun a b => a.page < b.page) →
      (∀ e ∈ l, e.page ≤ t) →
      (∀ b ∈ bm, b ≤ t + 1) →
      ∀ x ∈ calcPagesGo bm t l, x.start_page ≤ x.end_page ∧ x.end_page ≤ t
  | [], _, _, _ => by simp [calcPagesGo]
  | [e], _, hle, hbm => by
    intro x hx
    simp only [calcPagesGo, List.mem_singleton] at hx
    subst hx
    have he : e.page ≤ t := hle e (by simp)
    constructor
    · simp only [le_max_iff]; right; rfl
    · simp only [max_le_iff]
      refine ⟨?_, he⟩
      cases bm with
      | none => exact le_refl t
      | some b =>
        simp only
        split
        · have := hbm b rfl; omega
        · exact le_refl t
  | e :: e2 :: rest, hpw, hle, hbm => by
    intro x hx
    simp only [calcPagesGo, List.mem_cons] at hx
    rcases hx with hx | hx
    · subst hx
      have h12 : e.page < e2.page := (List.pairwise_cons.mp hpw).1 e2 (by simp)
      have he2 : e2.page ≤ t := hle e2 (by simp)
      constructor
      · simp only [le_max_iff]; right; rfl
      · simp only [max_le_iff]; omega
    · exact calcPagesGo_bounds bm t (e2 :: rest) (List.pairwise_cons.mp hpw).2
        (fun a ha => hle a (List.mem_cons_of_mem _ ha)) hbm x hx

theorem calcPagesGo_chain (bm : Option Int) (t : Int) :
    ∀ l : List TocEntry,
      l.Pairwise (fun a b => a.page < b.page) →
      (calcPagesGo bm t l).Chain' (fun a b => a.end_page < b.start_page)
  | [] | [_] => by intro _; simp [calcPagesGo]
  | e :: e2 :: rest => by
    intro hpw
    have h12 : e.page < e2.page := (List.pairwise_cons.mp hpw).1 e2 (by simp)
    have htail := calcPagesGo_chain bm t (e2 :: rest) (List.pairwise_cons.mp hpw).2
    simp only [calcPagesGo]
    refine List.Chain'.cons' htail ?_
    intro y hy
    have hhead : (calcPagesGo bm t (e2 :: rest)).map ChapterPage.start_page =
        (e2 :: rest).map TocEntry.page := calcPagesGo_start_eq_page bm t _
    have hy' : y.start_page = e2.page := by
      cases hgo : calcPagesGo bm t (e2 :: rest) with
      | nil => simp [hgo] at hy
      | cons z zs =>
        rw [hgo] at hy
        simp only [List.head?_cons, Option.mem_def, Option.some.injEq] at hy
        subst hy
        rw [hgo] at hhead
        simpa using congrArg List.head? hhead
    simp only [hy']
    omega

/--
C1, counterexample.  The claim asserts `start_page ≤ end_page ≤ totalPages`
for *every* input list and total page count.  For the entry list with pages
`[5, 200]` and a total page count of `100`, the first returned entry gets
`end_page = 199 > 100` (the end page is derived from the next entry's start
page and is never compared against the total page count), so the claim as
stated is false.
-/
theorem c1_counterexample :
    ¬ (∀ x ∈ calculate_chapter_pages [⟨5⟩, ⟨200⟩] none 100,
        x.start_page ≤ x.end_page ∧ x.end_page ≤ (100 : Int)) := by
  decide

/--
C1, amended.  If the entries' pages are pairwise distinct, every page is at
most `totalPages`, and the attached `backmatter_start` (when present) is at
most `totalPages + 1`, then every returned entry satisfies
`start_page ≤ end_page ≤ totalPages`, the entries are ordered by
`start_page`, and each entry's `end_page` is strictly below the next entry's
`start_page`.  (Without these hypotheses the code can return
`end_page > totalPages`, as the counterexample shows.)
-/
theorem c1_end_page_bounds (chapters : List TocEntry) (bm : Option Int) (t : Int)
    (hdist : chapters.Pairwise (fun a b => a.page ≠ b.page))
    (hle : ∀ e ∈ chapters, e.page ≤ t)
    (hbm : ∀ b ∈ bm, b ≤ t + 1) :
    (∀ x ∈ calculate_chapter_pages chapters bm t,
        x.start_page ≤ x.end_page ∧ x.end_page ≤ t) ∧
      (calculate_chapter_pages chapters bm t).Chain'
        (fun a b => a.end_page < b.start_page) ∧
      ((calculate_chapter_pages chapters bm t).map ChapterPage.start_page).Pairwise (· ≤ ·) := by
  have hperm : (chapters.insertionSort pageLE).Perm chapters :=
    List.perm_insertionSort _ chapters
  have hsorted : (chapters.insertionSort pageLE).Pairwise pageLE :=
    List.sorted_insertionSort pageLE chapters
  have hdist' : (chapters.insertionSort pageLE).Pairwise (fun a b => a.page ≠ b.page) :=
    (List.Perm.pairwise_iff (fun hab => hab ∘ Eq.symm) hperm).mpr hdist
  have hstrict : (chapters.insertionSort pageLE).Pairwise (fun a b => a.page < b.page) := by
    have := hsorted.and hdist'
    exact this.imp (fun h => lt_of_le_of_ne h.1 h.2)
  have hle' : ∀ e ∈ chapters.insertionSort pageLE, e.page ≤ t :=
    fun e he => hle e (hperm.mem_iff.mp he)
  refine ⟨calcPagesGo_bounds bm t _ hstrict hle' hbm, calcPagesGo_chain bm t _ hstrict, ?_⟩
  have hmap : (calculate_chapter_pages chapters bm t).map ChapterPage.start_page =
      (chapters.insertionSort pageLE).map TocEntry.page :=
    calcPagesGo_start_eq_page bm t _
  rw [hmap]
  exact List.Pairwise.map TocEntry.page (fun a b h => h) hsorted

/-- C1 witness: the amended theorem applied to a concrete extraction result
(three chapters at pages 1, 10, 30, back matter at page 90, 95 pages). -/
theorem c1_end_page_bounds_witness :
    (∀ x ∈ calculate_chapter_pages [⟨1⟩, ⟨10⟩, ⟨30⟩] (some 90) 95,
        x.start_page ≤ x.end_page ∧ x.end_page ≤ (95 : Int)) ∧
      (calculate_chapter_pages [⟨1⟩, ⟨10⟩, ⟨30⟩] (some 90) 95).Chain'
        (fun a b => a.end_page < b.start_page) ∧
      ((calculate_chapter_pages [⟨1⟩, ⟨10⟩, ⟨30⟩] (some 90) 95).map
          ChapterPage.start_page).Pairwise (· ≤ ·) :=
  c1_end_page_bounds [⟨1⟩, ⟨10⟩, ⟨30⟩] (some 90) 95
    (by decide) (by decide) (by decide)

/-! ## Content partitioner: `pdf_processor.chunk_text` -/

/-- The two-newline paragraph separator used by `chunk_text`. -/
def parSep : Str := ['\n', '\n']

/-- The split-point search of `chunk_text`'s hard-split branch: try
`". "`, `"! "`, `"? "`, `"\n"`, `" "` in order against the first
`chunk_size` characters; the first separator whose last occurrence lies past
`chunk_size // 2` wins (Python `rfind` + `last_sep > chunk_size // 2`),
otherwise split exactly at `chunk_size`. -/
def findSplitGo (chunkSize : Nat) (window : Str) : List Str → Nat
  | [] => chunkSize
  | sep :: more =>
    match pyRfind window sep with
    | some i => if chunkSize / 2 < i then i + sep.length else findSplitGo chunkSize window more
    | none => findSplitGo chunkSize window more

/-- Split-point selection for one hard-split iteration of `chunk_text`. -/
def findSplitPoint (chunkSize : Nat) (paragraph : Str) : Nat :=
  findSplitGo chunkSize (paragraph.take chunkSize)
    [['.', ' '], ['!', ' '], ['?', ' '], ['\n'], [' ']]

/-- The `while len(paragraph) > chunk_size` loop of `chunk_text`: peel off
stripped pieces of at most `chunk_size` characters; the final remainder
becomes the new running chunk.  The fuel equals the paragraph length, which
suffices because every split point is at least 1 for a positive
`chunk_size`. -/
def hardSplitGo (chunkSize : Nat) : Nat → Str → List Str → List Str × Str
  | 0, para, acc => (acc.reverse, para)
  | fuel + 1, para, acc =>
    if chunkSize < para.length then
      let sp := findSplitPoint chunkSize para
      hardSplitGo chunkSize fuel (para.drop sp) (pyStrip (para.take sp) :: acc)
    else (acc.reverse, para)

/-- The hard split of a single over-long paragraph in `chunk_text`. -/
def hardSplit (chunkSize : Nat) (para : Str) : List Str × Str :=
  hardSplitGo chunkSize para.length para []

/-- The accumulator state of `chunk_text`: the closed chunks plus the running
`current_chunk`. -/
structure ChunkState where
  chunks : List Str
  current : Str
  deriving Repr, DecidableEq

/-- Python `s[-n:]` (for `n > 0`). -/
def takeLast (s : Str) (n : Nat) : Str := s.drop (s.length - n)

/-- One iteration of `chunk_text`'s paragraph loop, translated clause by
clause: strip the paragraph, skip it when empty; when it would overflow the
running chunk, either close the chunk (seeding the next one with the trailing
`overlap` characters) or, if no chunk is running, hard-split the paragraph;
otherwise append it to the running chunk with a blank line. -/
def processParagraph (chunkSize overlap : Nat) (st : ChunkState) (para0 : Str) :
    ChunkState :=
  if (pyStrip para0).isEmpty then st
  else if chunkSize < st.current.length + (pyStrip para0).length then
    if st.current.isEmpty then
      ⟨st.chunks ++ (hardSplit chunkSize (pyStrip para0)).1,
        (hardSplit chunkSize (pyStrip para0)).2⟩
    else if 0 < overlap ∧ overlap < st.current.length then
      ⟨st.chunks ++ [pyStrip st.current],
        takeLast st.current overlap ++ parSep ++ pyStrip para0⟩
    else
      ⟨st.chunks ++ [pyStrip st.current], pyStrip para0⟩
  else if st.current.isEmpty then ⟨st.chunks, pyStrip para0⟩
  else ⟨st.chunks, st.current ++ parSep ++ pyStrip para0⟩

/-- `pdf_processor.chunk_text(text, chunk_size, overlap)`: split on blank
lines, accumulate paragraphs, close with the final running chunk if its
stripped form is non-empty. -/
def chunk_text (chunkSize overlap : Nat) (text : Str) : List Str :=
  let st := (pySplit parSep text).foldl (processParagraph chunkSize overlap) ⟨[], []⟩
  if (pyStrip st.current).isEmpty then st.chunks else st.chunks ++ [pyStrip st.current]

/-! ### C2 -/

/-- A chunk that is a single unbroken token run: it contains no whitespace at
all, so none of the hard-split separators (all of which contain a space or a
newline) can divide it. -/
def isTokenRun (c : Str) : Bool := c.all (fun ch => !pySpace ch)

theorem pyStrip_length_le (s : Str) : (pyStrip s).length ≤ s.length := by
  unfold pyStrip
  calc ((s.dropWhile pySpace).reverse.dropWhile pySpace).reverse.length
      ≤ (s.dropWhile pySpace).reverse.length := by
        rw [List.length_reverse]; exact (List.dropWhile_sublist pySpace).length_le
    _ ≤ s.length := by rw [List.length_reverse]; exact (List.dropWhile_sublist pySpace).length_le

theorem takeLast_length_le (s : Str) (n : Nat) : (takeLast s n).length ≤ n := by
  unfold takeLast
  simp only [List.length_drop]
  omega

/-- Invariant carried through the paragraph loop for the amended C2 bound. -/
def ChunkInv (bound : Nat) (st : ChunkState) : Prop :=
  (∀ c ∈ st.chunks, c.length ≤ bound) ∧ st.current.length ≤ bound

theorem processParagraph_inv (st : ChunkState) (para0 : Str)
    (hpar : (pyStrip para0).length ≤ 8000)
    (hinv : ChunkInv 8302 st) :
    ChunkInv 8302 (processParagraph 8000 300 st para0) := by
  obtain ⟨hch, hcur⟩ := hinv
  unfold processParagraph
  split_ifs with h1 h2 h3 h4 h5
  · exact ⟨hch, hcur⟩
  · -- hard-split branch: unreachable, the paragraph alone cannot overflow
    exfalso
    have h0 : st.current.length = 0 := by
      cases hc : st.current with
      | nil => simp
      | cons a l => rw [hc] at h3; simp [List.isEmpty] at h3
    rw [h0] at h2
    omega
  · -- close the running chunk, seed the next one with the overlap
    constructor
    · intro c hc
      rcases List.mem_append.mp hc with h | h
      · exact hch c h
      · rcases List.mem_singleton.mp h with rfl
        exact le_trans (pyStrip_length_le _) hcur
    · have hov : (takeLast st.current 300).length ≤ 300 := takeLast_length_le _ _
      simp only [List.length_append, parSep, List.length_cons, List.length_nil]
      omega
  · -- close the running chunk, start afresh with the paragraph
    constructor
    · intro c hc
      rcases List.mem_append.mp hc with h | h
      · exact hch c h
      · rcases List.mem_singleton.mp h with rfl
        exact le_trans (pyStrip_length_le _) hcur
    · simpa using hpar.trans (by omega)
  · exact ⟨hch, hpar.trans (by omega)⟩
  · refine ⟨hch, ?_⟩
    simp only [List.length_append, parSep, List.length_cons, List.length_nil]
    omega

theorem chunk_foldl_inv :
    ∀ (paras : List Str) (st : ChunkState),
      (∀ p ∈ paras, (pyStrip p).length ≤ 8000) →
      ChunkInv 8302 st →
      ChunkInv 8302 (paras.foldl (processParagraph 8000 300) st)
  | [], _, _, hinv => hinv
  | p :: rest, st, hall, hinv => by
    simp only [List.foldl_cons]
    exact chunk_foldl_inv rest _ (fun q hq => hall q (List.mem_cons_of_mem _ hq))
      (processParagraph_inv st p (hall p (List.mem_cons_self _ _)) hinv)

/--
C2, counterexample.  The claim says every chunk produced by
`chunk_text(text, 8000, 300)` has length at most 8000, except a chunk that is
a single undivided token run.  For the text consisting of an 8000-character
paragraph, a blank line and a second 8000-character paragraph, the second
chunk is the 300-character overlap plus a blank line plus the whole second
paragraph — 8302 characters containing newlines and hence splittable — so the
claim as stated is false.
-/
theorem dropWhile_eq_self_of_head (p : Char → Bool) (l : Str)
    (h : ∀ c, l.head? = some c → p c = false) : l.dropWhile p = l := by
  cases l with
  | nil => rfl
  | cons a t => simp [List.dropWhile_cons, h a rfl]

theorem pyStrip_eq_self (s : Str)
    (h1 : ∀ c, s.head? = some c → pySpace c = false)
    (h2 : ∀ c, s.getLast? = some c → pySpace c = false) : pyStrip s = s := by
  unfold pyStrip
  rw [dropWhile_eq_self_of_head pySpace s h1]
  rw [dropWhile_eq_self_of_head pySpace s.reverse (by simpa [List.head?_reverse] using h2)]
  exact List.reverse_reverse s

theorem pySplitGo_no_sep (m : Nat) :
    ∀ (fuel : Nat) (acc : Str), m ≤ fuel →
      pySplitGo '\n' ['\n'] fuel (List.replicate m 'b') acc =
        [acc.reverse ++ List.replicate m 'b'] := by
  induction m with
  | zero =>
    intro fuel acc _
    cases fuel <;>
      simp only [List.replicate_zero, pySplitGo, List.append_nil]
  | succ n ih =>
    intro fuel acc hf
    cases fuel with
    | zero => omega
    | succ f =>
      rw [List.replicate_succ]
      simp only [pySplitGo]
      rw [if_neg (by simp [pySpace])]
      rw [ih f ('b' :: acc) (by omega)]
      simp only [List.reverse_cons, List.append_assoc, List.cons_append, List.nil_append]

theorem pySplitGo_boundary (n m : Nat) :
    ∀ (fuel : Nat) (acc : Str), n + 2 + m ≤ fuel →
      pySplitGo '\n' ['\n'] fuel
          (List.replicate n 'a' ++ parSep ++ List.replicate m 'b') acc =
        [acc.reverse ++ List.replicate n 'a', List.replicate m 'b'] := by
  induction n with
  | zero =>
    intro fuel acc hf
    cases fuel with
    | zero => omega
    | succ f =>
      simp only [List.replicate_zero, List.nil_append, parSep, List.cons_append,
        List.nil_append, List.append_nil]
      simp only [pySplitGo]
      rw [if_pos (by simp [List.isPrefixOf])]
      simp only [List.length_cons, List.length_nil, Nat.zero_add, List.drop_succ_cons,
        List.drop_zero]
      rw [pySplitGo_no_sep m f [] (by omega)]
      simp only [List.reverse_nil, List.nil_append]
  | succ k ih =>
    intro fuel acc hf
    cases fuel with
    | zero => omega
    | succ f =>
      rw [List.replicate_succ]
      simp only [List.cons_append, pySplitGo]
      rw [if_neg (by simp [pySpace])]
      show pySplitGo '\n' ['\n'] f
          (List.replicate k 'a' ++ parSep ++ List.replicate m 'b') ('a' :: acc) = _
      rw [ih f ('a' :: acc) (by omega)]
      simp only [List.reverse_cons, List.append_assoc, List.cons_append, List.nil_append]

/-- The C2 counterexample text: two 8000-character paragraphs separated by a
blank line. -/
def c2text : Str := List.replicate 8000 'a' ++ parSep ++ List.replicate 8000 'b'

/-- The oversized chunk that `chunk_text` produces for `c2text`: the
300-character overlap, a blank line, and the whole second paragraph. -/
def c2big : Str := List.replicate 300 'a' ++ parSep ++ List.replicate 8000 'b'

theorem c2text_split :
    pySplit parSep c2text = [List.replicate 8000 'a', List.replicate 8000 'b'] := by
  have hgoal : pySplit parSep c2text =
      pySplitGo '\n' ['\n'] c2text.length c2text [] := rfl
  rw [hgoal]
  have hlen : c2text.length = 16002 := by
    unfold c2text
    rw [List.append_assoc, List.length_append, List.length_append,
      List.length_replicate, List.length_replicate]
    rfl
  rw [hlen]
  unfold c2text
  rw [List.append_assoc]
  rw [show List.replicate 8000 'a' ++ (parSep ++ List.replicate 8000 'b') =
      List.replicate 8000 'a' ++ parSep ++ List.replicate 8000 'b' from
    (List.append_assoc _ _ _).symm]
  rw [pySplitGo_boundary 8000 8000 16002 [] (by omega)]
  simp only [List.reverse_nil, List.nil_append]

theorem replicate_head (n : Nat) (c : Char) (h : 0 < n) :
    (List.replicate n c).head? = some c := by
  cases n with
  | zero => omega
  | succ k => rw [List.replicate_succ]; rfl

theorem pyStrip_replicate (n : Nat) (c : Char) (hc : pySpace c = false) :
    pyStrip (List.replicate n c) = List.replicate n c := by
  apply pyStrip_eq_self
  · intro d hd
    cases n with
    | zero => simp at hd
    | succ k => rw [replicate_head _ _ (by omega)] at hd; cases hd; exact hc
  · intro d hd
    cases n with
    | zero => simp at hd
    | succ k =>
      rw [List.getLast?_eq_head?_reverse, List.reverse_replicate,
        replicate_head _ _ (by omega)] at hd
      cases hd; exact hc

theorem c2big_head : c2big.head? = some 'a' := by
  unfold c2big
  rw [show (300 : Nat) = 299 + 1 from rfl, List.replicate_succ]
  rfl

theorem c2big_last : c2big.getLast? = some 'b' := by
  unfold c2big
  rw [List.getLast?_eq_head?_reverse]
  rw [List.reverse_append, List.reverse_append, List.reverse_replicate,
    List.reverse_replicate]
  rw [show (8000 : Nat) = 7999 + 1 from rfl, List.replicate_succ]
  rfl

theorem c2big_strip : pyStrip c2big = c2big := by
  apply pyStrip_eq_self
  · intro d hd; rw [c2big_head] at hd; cases hd; rfl
  · intro d hd; rw [c2big_last] at hd; cases hd; rfl

theorem length_c2a : (List.replicate 8000 'a').length = 8000 := List.length_replicate _ _

theorem c2_isEmpty_replicate (n : Nat) (c : Char) (h : 0 < n) :
    (List.replicate n c).isEmpty = false := by
  cases n with
  | zero => omega
  | succ k => rw [List.replicate_succ]; rfl

theorem c2big_isEmpty : c2big.isEmpty = false := by
  unfold c2big
  rw [show (300 : Nat) = 299 + 1 from rfl, List.replicate_succ]
  rfl

theorem c2_chunk_text_eval :
    chunk_text 8000 300 c2text = [List.replicate 8000 'a', c2big] := by
  unfold chunk_text
  rw [c2text_split]
  have hsa : pyStrip (List.replicate 8000 'a') = List.replicate 8000 'a' :=
    pyStrip_replicate 8000 'a' rfl
  have hsb : pyStrip (List.replicate 8000 'b') = List.replicate 8000 'b' :=
    pyStrip_replicate 8000 'b' rfl
  have hstep1 : processParagraph 8000 300 ⟨[], []⟩ (List.replicate 8000 'a') =
      ⟨[], List.replicate 8000 'a'⟩ := by
    unfold processParagraph
    rw [hsa]
    rw [if_neg (by rw [c2_isEmpty_replicate 8000 'a' (by omega)]; exact Bool.false_ne_true)]
    rw [if_neg (by simp only [List.length_nil, List.length_replicate]; omega)]
    rw [if_pos (by rfl)]
  have hstep2 : processParagraph 8000 300 ⟨[], List.replicate 8000 'a'⟩
      (List.replicate 8000 'b') = ⟨[List.replicate 8000 'a'], c2big⟩ := by
    unfold processParagraph
    rw [hsb]
    rw [if_neg (by rw [c2_isEmpty_replicate 8000 'b' (by omega)]; exact Bool.false_ne_true)]
    rw [if_pos (by simp only [List.length_replicate]; omega)]
    rw [if_neg (by rw [c2_isEmpty_replicate 8000 'a' (by omega)]; exact Bool.false_ne_true)]
    rw [if_pos (by constructor <;> [omega; (rw [List.length_replicate]; omega)])]
    rw [hsa]
    have htl : takeLast (List.replicate 8000 'a') 300 = List.replicate 300 'a' := by
      unfold takeLast
      rw [List.length_replicate, List.drop_replicate]
    rw [htl]
    rfl
  have hfold : List.foldl (processParagraph 8000 300) ⟨[], []⟩
      [List.replicate 8000 'a', List.replicate 8000 'b'] =
      ⟨[List.replicate 8000 'a'], c2big⟩ := by
    rw [List.foldl_cons, List.foldl_cons, List.foldl_nil, hstep1, hstep2]
  rw [hfold]
  show (if (pyStrip c2big).isEmpty = true then [List.replicate 8000 'a']
    else [List.replicate 8000 'a'] ++ [pyStrip c2big]) = _
  rw [c2big_strip, c2big_isEmpty]
  rfl

theorem c2big_length : c2big.length = 8302 := by
  unfold c2big
  rw [List.append_assoc, List.length_append, List.length_append,
    List.length_replicate, List.length_replicate]
  rfl

theorem c2big_not_token_run : isTokenRun c2big = false := by
  unfold isTokenRun c2big
  rw [List.append_assoc, List.all_append]
  have h2 : (parSep ++ List.replicate 8000 'b').all (fun ch => !pySpace ch) = false := by
    rw [show parSep ++ List.replicate 8000 'b' =
        '\n' :: ('\n' :: List.replicate 8000 'b') from rfl]
    rw [List.all_cons]
    rfl
  rw [h2, Bool.and_false]

/--
C2, counterexample.  The claim says every chunk produced by
`chunk_text(text, 8000, 300)` has length at most 8000, except a chunk that is
a single undivided token run.  For the text consisting of an 8000-character
paragraph, a blank line and a second 8000-character paragraph, the second
chunk is the 300-character overlap plus a blank line plus the whole second
paragraph — 8302 characters containing newlines and hence splittable — so the
claim as stated is false.
-/
theorem c2_counterexample :
    ¬ (∀ c ∈ chunk_text 8000 300 c2text,
        c.length ≤ 8000 ∨ isTokenRun c = true) := by
  intro h
  have hmem : c2big ∈ chunk_text 8000 300 c2text := by
    rw [c2_chunk_text_eval]
    exact List.mem_cons_of_mem _ (List.mem_singleton.mpr rfl)
  rcases h c2big hmem with hlen | htok
  · rw [c2big_length] at hlen; omega
  · rw [c2big_not_token_run] at htok; cases htok

/--
C2, amended.  The `targetSize` bound holds only up to the overlap seeding
and blank-line joining that `chunk_text` performs, and only when no single
stripped paragraph exceeds `targetSize`: under that hypothesis every chunk
has length at most `targetSize + overlap + 2 = 8302`.  (The bound is tight —
the counterexample reaches exactly 8302 — and without the hypothesis a long
paragraph arriving while a chunk is running is seeded into the next chunk
unsplit, so chunk lengths are unbounded.)
-/
theorem c2_chunk_bound (text : Str)
    (hpar : ∀ p ∈ pySplit parSep text, (pyStrip p).length ≤ 8000) :
    ∀ c ∈ chunk_text 8000 300 text, c.length ≤ 8302 := by
  intro c hc
  have hinv : ChunkInv 8302 ((pySplit parSep text).foldl (processParagraph 8000 300) ⟨[], []⟩) :=
    chunk_foldl_inv _ _ hpar ⟨by simp, by simp⟩
  unfold chunk_text at hc
  obtain ⟨hch, hcur⟩ := hinv
  by_cases hemp : (pyStrip ((pySplit parSep text).foldl (processParagraph 8000 300) ⟨[], []⟩).current).isEmpty
  · simp only [hemp, if_true] at hc
    exact hch c hc
  · simp only [hemp, if_false] at hc
    rcases List.mem_append.mp hc with h | h
    · exact hch c h
    · rcases List.mem_singleton.mp h with rfl
      exact le_trans (pyStrip_length_le _) hcur

/-- C2 witness: the amended bound applied to a concrete two-paragraph text. -/
theorem c2_chunk_bound_witness :
    (chunk_text 8000 300 ("hello world\n\nsecond paragraph".toList)).all
      (fun c => decide (c.length ≤ 8302)) = true :=
  List.all_eq_true.mpr (fun c hc => decide_eq_true
    (c2_chunk_bound ("hello world\n\nsecond paragraph".toList) (by decide) c hc))

/-! ## JSON values and Python dicts

Python JSON values as produced by `json.loads`.  Objects are ordered
association lists; `dictSet` follows Python assignment (update in place,
append new keys), so duplicate keys never arise from parsing. -/

/-- A Python JSON value. -/
inductive Json where
  | null : Json
  | bool : Bool → Json
  | num : Int → Json
  | str : Str → Json
  | arr : List Json → Json
  | obj : List (Str × Json) → Json
  deriving Repr

/-- Python `d[key]` lookup (first matching key). -/
def dictGet : List (Str × Json) → Str → Option Json
  | [], _ => none
  | (k, v) :: rest, key => if k = key then some v else dictGet rest key

/-- Python `d.get(key, default)`. -/
def dictGetD (m : List (Str × Json)) (key : Str) (d : Json) : Json :=
  (dictGet m key).getD d

/-- Python `key in d`. -/
def dictHasKey (m : List (Str × Json)) (key : Str) : Bool :=
  (dictGet m key).isSome

/-- Python `d[key] = v`: replace in place, or append a new key. -/
def dictSet : List (Str × Json) → Str → Json → List (Str × Json)
  | [], key, v => [(key, v)]
  | (k, w) :: rest, key, v =>
    if k = key then (k, v) :: rest else (k, w) :: dictSet rest key v

/-- Python `{**a, **b}`: `b`'s entries override `a`'s, new keys append in
`b`'s order. -/
def dictMerge (a b : List (Str × Json)) : List (Str × Json) :=
  b.foldl (fun acc kv => dictSet acc kv.1 kv.2) a

/-- Python `d.pop(key, None)` (the resulting dict). -/
def dictPop (m : List (Str × Json)) (key : Str) : List (Str × Json) :=
  m.filter (fun kv => decide (kv.1 ≠ key))

/-- Python truthiness of a JSON value. -/
def pyTruthy : Json → Bool
  | .null => false
  | .bool b => b
  | .num n => decide (n ≠ 0)
  | .str s => !s.isEmpty
  | .arr xs => !xs.isEmpty
  | .obj kvs => !kvs.isEmpty

/-- Field lookup on a JSON value (`j[key]` when `j` is an object). -/
def jGet (j : Json) (key : Str) : Option Json :=
  match j with
  | .obj kvs => dictGet kvs key
  | _ => none

/-! ## A model of `json.loads`

Executable recursive-descent parser for the JSON fragment the pipeline
exchanges: objects, arrays, double-quoted strings with the standard escapes,
integer numerals and the three literals.  Duplicate object keys follow
Python: the later value wins, the original position is kept. -/

/-- Whitespace accepted between JSON tokens. -/
def jsonWs (c : Char) : Bool := c = ' ' || c = '\t' || c = '\n' || c = '\r'

/-- Value of a hexadecimal digit. -/
def hexVal (c : Char) : Option Nat :=
  if '0' ≤ c ∧ c ≤ '9' then some (c.toNat - '0'.toNat)
  else if 'a' ≤ c ∧ c ≤ 'f' then some (c.toNat - 'a'.toNat + 10)
  else if 'A' ≤ c ∧ c ≤ 'F' then some (c.toNat - 'A'.toNat + 10)
  else none

/-- Parse the body of a JSON string (after the opening quote); returns the
decoded characters and the remainder after the closing quote. -/
def parseStrGo : Str → Str → Option (Str × Str)
  | [], _ => none
  | '"' :: rest, acc => some (acc.reverse, rest)
  | '\\' :: e :: rest, acc =>
    match e with
    | '"' => parseStrGo rest ('"' :: acc)
    | '\\' => parseStrGo rest ('\\' :: acc)
    | '/' => parseStrGo rest ('/' :: acc)
    | 'n' => parseStrGo rest ('\n' :: acc)
    | 't' => parseStrGo rest ('\t' :: acc)
    | 'r' => parseStrGo rest ('\r' :: acc)
    | 'b' => parseStrGo rest ('\x08' :: acc)
    | 'f' => parseStrGo rest ('\x0c' :: acc)
    | 'u' =>
      match rest with
      | h1 :: h2 :: h3 :: h4 :: more =>
        match hexVal h1, hexVal h2, hexVal h3, hexVal h4 with
        | some a, some b, some c, some d =>
          parseStrGo more (Char.ofNat (((a * 16 + b) * 16 + c) * 16 + d) :: acc)
        | _, _, _, _ => none
      | _ => none
    | _ => none
  | c :: rest, acc => parseStrGo rest (c :: acc)

/-- Numeric value of a digit run. -/
def digitsVal (ds : Str) : Nat :=
  ds.foldl (fun acc c => acc * 10 + (c.toNat - '0'.toNat)) 0

/-- Parse an unsigned integer numeral (no leading zeros). -/
def parseNumCore (cs : Str) : Option (Int × Str) :=
  let ds := cs.takeWhile Char.isDigit
  if ds.isEmpty then none
  else if ds.headD '0' = '0' ∧ 1 < ds.length then none
  else some ((digitsVal ds : Int), cs.drop ds.length)

/-- Parse a JSON integer numeral with optional sign. -/
def parseNum : Str → Option (Json × Str)
  | '-' :: rest => (parseNumCore rest).map (fun p => (Json.num (-p.1), p.2))
  | cs => (parseNumCore cs).map (fun p => (Json.num p.1, p.2))

mutual

/-- Parse one JSON value; the fuel bounds the recursion. -/
def parseVal : Nat → Str → Option (Json × Str)
  | 0, _ => none
  | fuel + 1, cs =>
    match cs.dropWhile jsonWs with
    | [] => none
    | '{' :: rest =>
      match rest.dropWhile jsonWs with
      | '}' :: more => some (.obj [], more)
      | other => parseMembers fuel other []
    | '[' :: rest =>
      match rest.dropWhile jsonWs with
      | ']' :: more => some (.arr [], more)
      | other => parseElems fuel other []
    | '"' :: rest => (parseStrGo rest []).map (fun p => (.str p.1, p.2))
    | 't' :: rest =>
      if ['r', 'u', 'e'].isPrefixOf rest then some (.bool true, rest.drop 3) else none
    | 'f' :: rest =>
      if ['a', 'l', 's', 'e'].isPrefixOf rest then some (.bool false, rest.drop 4) else none
    | 'n' :: rest =>
      if ['u', 'l', 'l'].isPrefixOf rest then some (.null, rest.drop 3) else none
    | other => parseNum other

/-- Parse the elements of a JSON array after the opening bracket. -/
def parseElems : Nat → Str → List Json → Option (Json × Str)
  | 0, _, _ => none
  | fuel + 1, cs, acc =>
    match parseVal fuel cs with
    | none => none
    | some (v, rest) =>
      match rest.dropWhile jsonWs with
      | ',' :: more => parseElems fuel more (v :: acc)
      | ']' :: more => some (.arr (v :: acc).reverse, more)
      | _ => none

/-- Parse the members of a JSON object after the opening brace. -/
def parseMembers : Nat → Str → List (Str × Json) → Option (Json × Str)
  | 0, _, _ => none
  | fuel + 1, cs, acc =>
    match cs.dropWhile jsonWs with
    | '"' :: rest =>
      match parseStrGo rest [] with
      | none => none
      | some (k, rest2) =>
        match rest2.dropWhile jsonWs with
        | ':' :: rest3 =>
          match parseVal fuel rest3 with
          | none => none
          | some (v, rest4) =>
            match rest4.dropWhile jsonWs with
            | ',' :: more => parseMembers fuel more (dictSet acc k v)
            | '}' :: more => some (.obj (dictSet acc k v), more)
            | _ => none
        | _ => none
    | _ => none

end

/-- Model of `json.loads`: parse one value and require only trailing
whitespace after it. -/
def jsonLoads (cs : Str) : Option Json :=
  match parseVal (2 * cs.length + 2) cs with
  | some (v, rest) => if (rest.dropWhile jsonWs).isEmpty then some v else none
  | none => none

/-! ## Fenced-code-block extraction

Several stages run the same preamble before `json.loads`:
`response.split("```json")[1].split("```")[0]` when a \x60\x60\x60json fence is
present, else `response.split("```")[1].split("```")[0]` when any fence is
present, else the raw response. -/

/-- The literal `"```json"`. -/
def fenceJson : Str := "```json".toList

/-- The literal `"```"`. -/
def fenceMark : Str := "```".toList

/-- The fence-extraction preamble shared by `summarize_chunk`,
`detect_quality`, `generate_book_overview` and `generate_course_structure`. -/
def fenceExtract (r : Str) : Str :=
  if pyContains fenceJson r then
    (pySplit fenceMark ((pySplit fenceJson r).getD 1 [])).getD 0 []
  else if pyContains fenceMark r then
    (pySplit fenceMark ((pySplit fenceMark r).getD 1 [])).getD 0 []
  else r

/-! ## Stage 2: `ai_generator.detect_quality`

The function sends the prompt (not modelled; the oracle fixes the response),
extracts the fenced block, and returns `json.loads(response.strip())`
verbatim on success; on a parse failure it returns the neutral ENHANCE
verdict with all scores 5. -/

/-- The parse-failure fallback verdict of `detect_quality`. -/
def qualityFallback : Json :=
  .obj [("specificity_score".toList, .num 5),
        ("technical_depth_score".toList, .num 5),
        ("actionability_score".toList, .num 5),
        ("average_score".toList, .num 5),
        ("mode".toList, .str "ENHANCE".toList),
        ("reasoning".toList, .str "Could not parse quality detection response".toList)]

/-- `ai_generator.detect_quality`, as a function of the model response. -/
def detect_quality (response : Str) : Json :=
  match jsonLoads (pyStrip (fenceExtract response)) with
  | some j => j
  | none => qualityFallback

/-! ### C3 -/

/-- The response has three 1–10 sub-scores (the claim's precondition). -/
def HasValidScores (d : Json) : Prop :=
  (∃ n : Int, jGet d "specificity_score".toList = some (.num n) ∧ 1 ≤ n ∧ n ≤ 10) ∧
  (∃ n : Int, jGet d "technical_depth_score".toList = some (.num n) ∧ 1 ≤ n ∧ n ≤ 10) ∧
  (∃ n : Int, jGet d "actionability_score".toList = some (.num n) ∧ 1 ≤ n ∧ n ≤ 10)

/-- A model response carrying three valid scores, average 9, but mode
ENHANCE: the code returns it verbatim. -/
def c3resp : Str :=
  ("\x7b\"specificity_score\": 9, \"technical_depth_score\": 9, " ++
   "\"actionability_score\": 9, \"average_score\": 9, \"mode\": \"ENHANCE\", " ++
   "\"reasoning\": \"good\"\x7d").toList

/-- The parsed form of `c3resp`. -/
def c3parsed : Json :=
  .obj [("specificity_score".toList, .num 9),
        ("technical_depth_score".toList, .num 9),
        ("actionability_score".toList, .num 9),
        ("average_score".toList, .num 9),
        ("mode".toList, .str "ENHANCE".toList),
        ("reasoning".toList, .str "good".toList)]

set_option maxRecDepth 40000 in
/--
C3, counterexample.  `detect_quality` never computes or enforces the
`average ≥ 7 ⇒ PRESERVE` rule: it returns whatever verdict the model sent
(the rule appears only in the prompt).  For a response with all sub-scores 9,
average 9 and mode `"ENHANCE"`, the returned verdict has mode ENHANCE even
though the average is ≥ 7, so the claimed equivalence is false.
-/
theorem c3_counterexample :
    ¬ (∀ avg : Int,
        jGet (detect_quality c3resp) "average_score".toList = some (.num avg) →
        HasValidScores (detect_quality c3resp) →
        (jGet (detect_quality c3resp) "mode".toList = some (.str "PRESERVE".toList) ↔
          7 ≤ avg)) := by
  intro h
  have hvalid : HasValidScores (detect_quality c3resp) :=
    ⟨⟨9, rfl, by omega, by omega⟩, ⟨9, rfl, by omega, by omega⟩,
      ⟨9, rfl, by omega, by omega⟩⟩
  have havg : jGet (detect_quality c3resp) "average_score".toList = some (.num 9) := rfl
  have hmode := (h 9 havg hvalid).mpr (by omega)
  have heval : jGet (detect_quality c3resp) "mode".toList =
      some (.str "ENHANCE".toList) := rfl
  have hcontra := heval.symm.trans hmode
  rw [Option.some.injEq] at hcontra
  injection hcontra with hs
  exact absurd (congrArg List.length hs) (by decide)

/--
C3, amended.  `detect_quality` passes the model's verdict through unchanged:
whenever the (fence-extracted, stripped) response parses as JSON, the
returned verdict is exactly the parsed value — its `mode` is whatever string
the model chose, with no relation to `average_score` enforced (the `≥ 7`
rule is only requested in the prompt); on parse failure the neutral ENHANCE
verdict with all scores 5 is returned.
-/
theorem c3_verdict_passthrough (response : Str) (j : Json)
    (h : jsonLoads (pyStrip (fenceExtract response)) = some j) :
    detect_quality response = j := by
  unfold detect_quality
  rw [h]

set_option maxRecDepth 40000 in
/-- C3 witness: the pass-through theorem applied to the concrete response
with average 9 and mode ENHANCE. -/
theorem c3_verdict_passthrough_witness : detect_quality c3resp = c3parsed :=
  c3_verdict_passthrough c3resp c3parsed rfl

/-! ## Stage 1: `ai_generator.summarize_chunk`

Same parse preamble as `detect_quality`; on parse failure the code returns
`{"topics": [], "concepts": [], "summary": response}` where `response` is the
*reassigned* variable — i.e. the fence-extracted text, not necessarily the
raw model response. -/

/-- `ai_generator.summarize_chunk`, as a function of the model response. -/
def summarize_chunk (response : Str) : Json :=
  match jsonLoads (pyStrip (fenceExtract response)) with
  | some j => j
  | none =>
    .obj [("topics".toList, .arr []),
          ("concepts".toList, .arr []),
          ("summary".toList, .str (fenceExtract response))]

/-! ### C9 -/

/-- A fenced response whose fence content is not JSON. -/
def c9resp : Str := "```json\nxyzzy\n```".toList

/--
C9, counterexample.  On parse failure the fallback's `summary` is the
variable `response` *after* the fence-splitting reassignment.  For the
response ```` ```json\nxyzzy\n``` ```` the stage returns
`summary = "\nxyzzy\n"` (the fence interior), not the raw model response
text, so the claim as stated is false.
-/
theorem c9_counterexample :
    ¬ (jsonLoads (pyStrip (fenceExtract c9resp)) = none →
        jGet (summarize_chunk c9resp) "summary".toList = some (.str c9resp)) := by
  intro h
  have hs := h rfl
  have heval : jGet (summarize_chunk c9resp) "summary".toList =
      some (.str "\nxyzzy\n".toList) := rfl
  have hcontra := heval.symm.trans hs
  rw [Option.some.injEq] at hcontra
  injection hcontra with hstr
  exact absurd (congrArg List.length hstr) (by decide)

/--
C9, amended.  When the summarization response cannot be parsed as JSON, the
stage returns `{topics: [], concepts: [], summary: s}` where `s` is the
response after fence extraction — the raw response when no code fence is
present, and the fence interior otherwise — instead of failing the job.
-/
theorem c9_summary_fallback (response : Str)
    (h : jsonLoads (pyStrip (fenceExtract response)) = none) :
    summarize_chunk response =
      .obj [("topics".toList, .arr []),
            ("concepts".toList, .arr []),
            ("summary".toList, .str (fenceExtract response))] := by
  unfold summarize_chunk
  rw [h]

/-- C9 witness: the fallback theorem applied to the concrete fenced
response. -/
theorem c9_summary_fallback_witness :
    summarize_chunk c9resp =
      .obj [("topics".toList, .arr []),
            ("concepts".toList, .arr []),
            ("summary".toList, .str "\nxyzzy\n".toList)] :=
  c9_summary_fallback c9resp rfl

/-! ## `ai_generator.extract_json_from_response`

The robust extractor used by structure, lesson-content and quiz stages.
A raised `json.JSONDecodeError` is embedded as `Except.error ()` — a failure
distinct from the transport failures of `call_openrouter`, which propagate
as `httpx` exceptions before any parsing is attempted. -/

/-- The single candidate found by `re.findall(r'\x7b[\s\S]*\x7d', response)`:
the greedy match runs from the first `\x7b` to the last `\x7d` (there is at
most one match). -/
def largestBraceSpan (r : Str) : Option Str :=
  match r.findIdx? (fun c => c = '{') with
  | none => none
  | some i =>
    match r.reverse.findIdx? (fun c => c = '}') with
    | none => none
    | some jr =>
      let j := r.length - 1 - jr
      if i < j then some ((r.drop i).take (j - i + 1)) else none

/-- `ai_generator.extract_json_from_response`, translated clause by clause:
five methods tried in order, raising on total failure. -/
def extract_json_from_response (r : Str) : Except Unit Json :=
  match jsonLoads (pyStrip r) with
  | some j => .ok j
  | none =>
    match (if pyContains fenceJson r then
        jsonLoads (pyStrip ((pySplit fenceMark ((pySplit fenceJson r).getD 1 [])).getD 0 []))
      else none) with
    | some j => .ok j
    | none =>
      match (if pyContains fenceMark r then
          jsonLoads (pyStrip ((pySplit fenceMark ((pySplit fenceMark r).getD 1 [])).getD 0 []))
        else none) with
      | some j => .ok j
      | none =>
        match (match largestBraceSpan r with
          | some cand =>
            match jsonLoads cand with
            | some (Json.obj kvs) => if 2 < kvs.length then some (Json.obj kvs) else none
            | _ => none
          | none => none) with
        | some j => .ok j
        | none =>
          match (if r.head? = some '"' ∧ r.getLast? = some '"' then
              match jsonLoads r with
              | some (Json.str s) => jsonLoads s
              | _ => none
            else none) with
          | some j => .ok j
          | none => .error ()

/-! ### C7

The five methods, each written from the spec's description, and the theorem
that the code is exactly their ordered cascade. -/

/-- Spec method 1: parse the entire trimmed response. -/
def specMethod1 (r : Str) : Option Json := jsonLoads (pyStrip r)

/-- Spec method 2: extract a fenced ```json block and parse it. -/
def specMethod2 (r : Str) : Option Json :=
  if pyContains fenceJson r then
    jsonLoads (pyStrip ((pySplit fenceMark ((pySplit fenceJson r).getD 1 [])).getD 0 []))
  else none

/-- Spec method 3: extract any fenced block and parse it. -/
def specMethod3 (r : Str) : Option Json :=
  if pyContains fenceMark r then
    jsonLoads (pyStrip ((pySplit fenceMark ((pySplit fenceMark r).getD 1 [])).getD 0 []))
  else none

/-- Spec method 4: the largest `\x7b...\x7d` span, accepted only when it parses
to an object with more than two keys. -/
def specMethod4 (r : Str) : Option Json :=
  match largestBraceSpan r with
  | some cand =>
    match jsonLoads cand with
    | some (Json.obj kvs) => if 2 < kvs.length then some (Json.obj kvs) else none
    | _ => none
  | none => none

/-- Spec method 5: a response that is itself a JSON-encoded string is
unescaped and parsed. -/
def specMethod5 (r : Str) : Option Json :=
  if r.head? = some '"' ∧ r.getLast? = some '"' then
    match jsonLoads r with
    | some (Json.str s) => jsonLoads s
    | _ => none
  else none

/-- The spec's description of the extractor: the five methods in order, a
parse failure (distinct from returning an empty object) when all fail. -/
def extractJsonSpecCascade (r : Str) : Except Unit Json :=
  match (specMethod1 r).orElse (fun _ => (specMethod2 r).orElse (fun _ =>
      (specMethod3 r).orElse (fun _ => (specMethod4 r).orElse (fun _ =>
      specMethod5 r)))) with
  | some j => .ok j
  | none => .error ()

/--
C7.  `extract_json_from_response` is exactly the ordered five-method cascade
the spec describes, and it raises a parse failure (`Except.error`, never a
silently empty object) precisely when all five methods fail.
-/
theorem c7_extraction_cascade (r : Str) :
    extract_json_from_response r = extractJsonSpecCascade r ∧
    (extract_json_from_response r = .error () ↔
      specMethod1 r = none ∧ specMethod2 r = none ∧ specMethod3 r = none ∧
        specMethod4 r = none ∧ specMethod5 r = none) := by
  have hcascade : extract_json_from_response r = extractJsonSpecCascade r := by
    unfold extract_json_from_response extractJsonSpecCascade
      specMethod1 specMethod2 specMethod3 specMethod4 specMethod5
    cases jsonLoads (pyStrip r) with
    | some j => rfl
    | none =>
      cases (if pyContains fenceJson r then
          jsonLoads (pyStrip ((pySplit fenceMark ((pySplit fenceJson r).getD 1 [])).getD 0 []))
        else none) with
      | some j => rfl
      | none =>
        cases (if pyContains fenceMark r then
            jsonLoads (pyStrip ((pySplit fenceMark ((pySplit fenceMark r).getD 1 [])).getD 0 []))
          else none) with
        | some j => rfl
        | none =>
          cases (match largestBraceSpan r with
            | some cand =>
              match jsonLoads cand with
              | some (Json.obj kvs) => if 2 < kvs.length then some (Json.obj kvs) else none
              | _ => none
            | none => none) with
          | some j => rfl
          | none =>
            cases (if r.head? = some '"' ∧ r.getLast? = some '"' then
                match jsonLoads r with
                | some (Json.str s) => jsonLoads s
                | _ => none
              else none) with
            | some j => rfl
            | none => rfl
  refine ⟨hcascade, ?_⟩
  rw [hcascade]
  unfold extractJsonSpecCascade
  cases h1 : specMethod1 r with
  | some j => simp [Option.orElse]
  | none =>
    cases h2 : specMethod2 r with
    | some j => simp [Option.orElse]
    | none =>
      cases h3 : specMethod3 r with
      | some j => simp [Option.orElse]
      | none =>
        cases h4 : specMethod4 r with
        | some j => simp [Option.orElse]
        | none =>
          cases h5 : specMethod5 r with
          | some j => simp [Option.orElse]
          | none => simp [Option.orElse]

/-! ## `ai_generator.validate_lesson_content`

The post-parse repair pass for lesson content.  Steps, in source order:
un-nest a JSON object hiding inside the `explanation` string, regenerate
empty `keyPoints`, and replace empty-or-template `introduction` and
`summary`.  `kp.get` on a non-dict element raises an uncaught
`AttributeError`, embedded as `Except.error`. -/

/-- The nested-explanation repair (the first step of
`validate_lesson_content`): if `explanation` is a string whose stripped form
starts with `\x7b` and which parses to an object, merge that object over the
content (`\x7b**content, **nested\x7d`) and overwrite `explanation` from the
nested value when present. -/
def repairNested (kvs : List (Str × Json)) : List (Str × Json) :=
  match dictGetD kvs "explanation".toList (.str []) with
  | .str s =>
    if (pyStrip s).head? = some '{' then
      match jsonLoads s with
      | some (.obj nested) =>
        match dictGet nested "explanation".toList with
        | some e => dictSet (dictMerge kvs nested) "explanation".toList e
        | none => dictMerge kvs nested
      | _ => kvs
    else kvs
  | _ => kvs

/-- `all(not kp.get("title") and not kp.get("description") for kp in key_points)`;
a non-dict element makes `kp.get` raise. -/
def allKpEmpty : List Json → Except Unit Bool
  | [] => .ok true
  | .obj kp :: rest =>
    if !pyTruthy (dictGetD kp "title".toList .null) &&
        !pyTruthy (dictGetD kp "description".toList .null) then
      allKpEmpty rest
    else .ok false
  | _ :: _ => .error ()

/-- Whether the `keyPoints` regeneration branch is taken: a falsy value, or
every entry having neither title nor description.  Iterating a truthy
non-list raises (string characters and dict keys are strings, on which
`.get` raises; numbers are not iterable). -/
def kpEmptyCond (kpv : Json) : Except Unit Bool :=
  if !pyTruthy kpv then .ok true
  else
    match kpv with
    | .arr xs => allKpEmpty xs
    | _ => .error ()

/-- The regenerated `keyPoints` value derived from the topics. -/
def mkKeyPoints (topics : List Str) : Json :=
  if topics.isEmpty then .arr []
  else
    .arr ((topics.take 3).map (fun t =>
      .obj [("title".toList, .str ("Understanding ".toList ++ t)),
            ("description".toList, .str ("Core concepts related to ".toList ++ t))]))

/-- The `keyPoints` repair step of `validate_lesson_content`. -/
def repairKeyPoints (kvs : List (Str × Json)) (topics : List Str) :
    Except Unit (List (Str × Json)) :=
  match kpEmptyCond (dictGetD kvs "keyPoints".toList (.arr [])) with
  | .error e => .error e
  | .ok true => .ok (dictSet kvs "keyPoints".toList (mkKeyPoints topics))
  | .ok false => .ok kvs

/-- Python `==` between a JSON value and a string. -/
def jsonEqStr (j : Json) (s : Str) : Bool :=
  match j with
  | .str t => decide (t = s)
  | _ => false

/-- The generic introduction the model sometimes echoes back. -/
def introTemplate (title : Str) : Str :=
  "In this lesson, we\x27ll explore ".toList ++ title ++ ".".toList

/-- The synthesized replacement introduction. -/
def introReplacement (title : Str) (topics : List Str) : Str :=
  "This lesson covers ".toList ++ title ++ ", focusing on ".toList ++
    (if topics.isEmpty then "key concepts".toList
     else List.intercalate ", ".toList (topics.take 2)) ++
    ". Understanding these fundamentals is essential for building a strong foundation.".toList

/-- The `introduction` repair step of `validate_lesson_content`. -/
def repairIntro (kvs : List (Str × Json)) (title : Str) (topics : List Str) :
    List (Str × Json) :=
  if !pyTruthy (dictGetD kvs "introduction".toList (.str [])) ||
      jsonEqStr (dictGetD kvs "introduction".toList (.str [])) (introTemplate title) then
    dictSet kvs "introduction".toList (.str (introReplacement title topics))
  else kvs

/-- The generic summary the model sometimes echoes back. -/
def summaryTemplate (title : Str) : Str :=
  "This lesson covered the key aspects of ".toList ++ title ++ ".".toList

/-- The synthesized replacement summary. -/
def summaryReplacement (title : Str) : Str :=
  "In this lesson, we explored ".toList ++ title ++
    ". The key concepts covered will help you understand and apply these principles in practice.".toList

/-- The `summary` repair step of `validate_lesson_content`. -/
def repairSummary (kvs : List (Str × Json)) (title : Str) : List (Str × Json) :=
  if !pyTruthy (dictGetD kvs "summary".toList (.str [])) ||
      jsonEqStr (dictGetD kvs "summary".toList (.str [])) (summaryTemplate title) then
    dictSet kvs "summary".toList (.str (summaryReplacement title))
  else kvs

/-- `ai_generator.validate_lesson_content(content, lesson_title, topics)`:
the four repair steps in source order; `content.get` on a non-dict raises. -/
def validate_lesson_content (content : Json) (title : Str) (topics : List Str) :
    Except Unit Json :=
  match content with
  | .obj kvs =>
    match repairKeyPoints (repairNested kvs) topics with
    | .error e => .error e
    | .ok kvs2 => .ok (.obj (repairSummary (repairIntro kvs2 title topics) title))
  | _ => .error ()

/-! ### C5 -/

theorem dictGet_dictSet_self (m : List (Str × Json)) (k : Str) (v : Json) :
    dictGet (dictSet m k v) k = some v := by
  induction m with
  | nil => simp [dictSet, dictGet]
  | cons a rest ih =>
    by_cases h : a.1 = k
    · simp [dictSet, dictGet, h]
    · simp only [dictSet, dictGet, h, if_false]
      exact ih

theorem dictGet_dictSet_ne (m : List (Str × Json)) (k : Str) (v : Json) (k' : Str)
    (h : k ≠ k') : dictGet (dictSet m k v) k' = dictGet m k' := by
  induction m with
  | nil => simp [dictSet, dictGet, h]
  | cons a rest ih =>
    by_cases ha : a.1 = k
    · simp only [dictSet, ha, if_true]
      simp only [dictGet]
      rw [ha]
      rw [if_neg h, if_neg h]
    · simp only [dictSet, ha, if_false]
      simp only [dictGet]
      by_cases ha' : a.1 = k'
      · rw [if_pos ha', if_pos ha']
      · rw [if_neg ha', if_neg ha']
        exact ih

theorem dictGet_eq_none_of_not_mem (m : List (Str × Json)) (k : Str)
    (h : k ∉ m.map Prod.fst) : dictGet m k = none := by
  induction m with
  | nil => rfl
  | cons a rest ih =>
    simp only [List.map_cons, List.mem_cons] at h
    push_neg at h
    simp only [dictGet]
    rw [if_neg (fun hh => h.1 hh.symm)]
    exact ih h.2

theorem dictGet_dictMerge_of_none (a b : List (Str × Json)) (k : Str)
    (h : dictGet b k = none) : dictGet (dictMerge a b) k = dictGet a k := by
  induction b generalizing a with
  | nil => rfl
  | cons p rest ih =>
    simp only [dictGet] at h
    by_cases hp : p.1 = k
    · rw [if_pos hp] at h; cases h
    · rw [if_neg hp] at h
      show dictGet (dictMerge (dictSet a p.1 p.2) rest) k = _
      rw [ih (dictSet a p.1 p.2) h, dictGet_dictSet_ne _ _ _ _ hp]

theorem dictGet_dictMerge (a b : List (Str × Json)) (k : Str)
    (hnodup : (b.map Prod.fst).Nodup) :
    dictGet (dictMerge a b) k =
      match dictGet b k with
      | some v => some v
      | none => dictGet a k := by
  induction b generalizing a with
  | nil => rfl
  | cons p rest ih =>
    simp only [List.map_cons, List.nodup_cons] at hnodup
    show dictGet (dictMerge (dictSet a p.1 p.2) rest) k = _
    by_cases hp : p.1 = k
    · have hrest : dictGet rest k = none :=
        dictGet_eq_none_of_not_mem rest k (hp ▸ hnodup.1)
      rw [ih (dictSet a p.1 p.2) hnodup.2]
      rw [hrest]
      simp only [dictGet, if_pos hp]
      rw [hp, dictGet_dictSet_self]
    · rw [ih (dictSet a p.1 p.2) hnodup.2]
      simp only [dictGet, if_neg hp]
      cases dictGet rest k with
      | some v => rfl
      | none => exact dictGet_dictSet_ne _ _ _ _ hp

/-- The C5 counterexample content: a nested-JSON `explanation` whose object
carries an `introduction`, while the top-level `introduction` is the
non-empty string `"A"`. -/
def c5kvs : List (Str × Json) :=
  [("explanation".toList, .str "\x7b\"introduction\": \"B\"\x7d".toList),
   ("introduction".toList, .str "A".toList)]

/--
C5, counterexample.  The merge `\x7b**content, **nested\x7d` overwrites
top-level keys unconditionally — there is no emptiness check.  With a nested
object carrying `introduction = "B"` and a non-empty top-level
`introduction = "A"`, the repaired content has `introduction = "B"`, so the
claim that non-`explanation` keys are written only into empty top-level keys
is false.
-/
theorem c5_counterexample :
    ¬ (∀ res, validate_lesson_content (.obj c5kvs) "L".toList [] = .ok res →
        jGet res "introduction".toList = some (.str "A".toList)) := by
  intro h
  have hres := h (match validate_lesson_content (.obj c5kvs) "L".toList [] with
    | .ok r => r
    | .error _ => .null) rfl
  have heval : jGet (match validate_lesson_content (.obj c5kvs) "L".toList [] with
      | .ok r => r
      | .error _ => .null) "introduction".toList = some (.str "B".toList) := rfl
  have hcontra := heval.symm.trans hres
  rw [Option.some.injEq] at hcontra
  injection hcontra with hs
  exact absurd hs (by decide)

/--
C5, amended.  When `explanation` is a string whose stripped form starts with
`\x7b` and which parses to a JSON object, the nested object's keys are merged
into the content with the nested value winning *unconditionally* (Python
`\x7b**content, **nested\x7d` — not only into empty top-level keys), and
`explanation` becomes the nested object's `explanation` when present, else it
keeps the original nested-JSON string.
-/
theorem c5_merge_overwrites (kvs : List (Str × Json)) (s : Str)
    (nested : List (Str × Json))
    (hexp : dictGetD kvs "explanation".toList (.str []) = .str s)
    (hbrace : (pyStrip s).head? = some '{')
    (hparse : jsonLoads s = some (.obj nested))
    (hnodup : (nested.map Prod.fst).Nodup) :
    (∀ k, k ≠ "explanation".toList →
      dictGet (repairNested kvs) k =
        match dictGet nested k with
        | some v => some v
        | none => dictGet kvs k) ∧
    dictGet (repairNested kvs) "explanation".toList =
      some (match dictGet nested "explanation".toList with
            | some e => e
            | none => .str s) := by
  have hkey : dictGet kvs "explanation".toList = some (.str s) := by
    unfold dictGetD at hexp
    cases hg : dictGet kvs "explanation".toList with
    | some v => rw [hg] at hexp; simp at hexp; rw [hexp]
    | none =>
      rw [hg] at hexp
      simp only [Option.getD_none] at hexp
      exfalso
      have : s = [] := by
        have := congrArg (fun j => match j with | Json.str t => t | _ => []) hexp
        simpa using this.symm
      rw [this] at hbrace
      simp [pyStrip] at hbrace
  have hrn : repairNested kvs =
      match dictGet nested "explanation".toList with
      | some e => dictSet (dictMerge kvs nested) "explanation".toList e
      | none => dictMerge kvs nested := by
    unfold repairNested
    simp only [hexp]
    rw [if_pos hbrace]
    simp only [hparse]
  cases hne : dictGet nested "explanation".toList with
  | some e =>
    have hrn2 : repairNested kvs =
        dictSet (dictMerge kvs nested) "explanation".toList e := by
      rw [hrn, hne]
    constructor
    · intro k hk
      rw [hrn2, dictGet_dictSet_ne _ _ _ _ (fun hh => hk hh.symm),
        dictGet_dictMerge _ _ _ hnodup]
    · rw [hrn2, dictGet_dictSet_self]
  | none =>
    have hrn2 : repairNested kvs = dictMerge kvs nested := by
      rw [hrn, hne]
    constructor
    · intro k hk
      rw [hrn2, dictGet_dictMerge _ _ _ hnodup]
    · rw [hrn2, dictGet_dictMerge _ _ _ hnodup, hne, hkey]

/-- C5 witness: the merge theorem applied to the concrete content, showing
the nested `introduction` overwriting the non-empty top-level one. -/
theorem c5_merge_overwrites_witness :
    dictGet (repairNested c5kvs) "introduction".toList = some (.str "B".toList) :=
  (c5_merge_overwrites c5kvs "\x7b\"introduction\": \"B\"\x7d".toList
      [("introduction".toList, .str "B".toList)]
      rfl rfl rfl (by simp)).1 "introduction".toList (by decide)

/-! ## `ai_generator.generate_quiz`

The quiz stage as a function of the lesson title, the lesson content, and
the model responses of its two attempts.  Inside the attempt loop every
exception (`json.JSONDecodeError` from extraction, `AttributeError` or
`TypeError` from malformed shapes) is caught and turns the attempt into a
retry, so an attempt is modelled as `Option`: `some` is an early `return`,
`none` falls through.  The preamble before the loop and the fallback's
`lesson_title.split()[0]` run outside any `try` and can raise. -/

/-- The placeholder patterns of `generate_quiz.is_placeholder_option`. -/
def placeholderPats : List Str :=
  ["option a".toList, "option b".toList, "option c".toList, "option d".toList,
   "a)".toList, "b)".toList, "c)".toList, "d)".toList,
   "a.".toList, "b.".toList, "c.".toList, "d.".toList,
   "...".toList, "placeholder".toList]

/-- `generate_quiz.is_placeholder_option`: strip, lowercase, reject anything
of length at most 3, then match the placeholder patterns exactly or as a
space-terminated head. -/
def is_placeholder_option (opt : Str) : Bool :=
  if (pyLower (pyStrip opt)).length ≤ 3 then true
  else
    placeholderPats.any (fun p =>
      decide (pyLower (pyStrip opt) = p) || (p ++ [' ']).isPrefixOf (pyLower (pyStrip opt)))

/-- Python `len` (raises on numbers, booleans, `None`). -/
def pyLen : Json → Option Nat
  | .str s => some s.length
  | .arr xs => some xs.length
  | .obj kvs => some kvs.length
  | _ => none

/-- `opt.strip()` requires every option to be a string; a non-string raises. -/
def optsAsStrs : List Json → Option (List Str)
  | [] => some []
  | .str s :: rest => (optsAsStrs rest).map (s :: ·)
  | _ :: _ => none

/-- The per-question validation of `generate_quiz`: `some q` is kept,
`none` is skipped, `error` is an exception aborting the attempt.  A falsy
`options` value skips silently; iterating a truthy string yields
single-character strings and a truthy dict yields its keys (each then
checked by `is_placeholder_option`); iterating a number or boolean raises. -/
def procQuestion (q : Json) : Except Unit (Option Json) :=
  match q with
  | .obj kvs =>
    match dictGetD kvs "options".toList (.arr []) with
    | .arr opts =>
      if opts.isEmpty then .ok none
      else
        match optsAsStrs opts with
        | none => .error ()
        | some strs =>
          if strs.all is_placeholder_option then .ok none
          else
            match pyLen (dictGetD kvs "question".toList (.str [])) with
            | none => .error ()
            | some n => .ok (if 10 < n then some q else none)
    | .str _ => .ok none
    | .obj okvs =>
      if okvs.isEmpty then .ok none
      else if (okvs.map Prod.fst).all is_placeholder_option then .ok none
      else
        match pyLen (dictGetD kvs "question".toList (.str [])) with
        | none => .error ()
        | some n => .ok (if 10 < n then some q else none)
    | .null => .ok none
    | .bool b => if b then .error () else .ok none
    | .num n => if n = 0 then .ok none else .error ()
  | _ => .error ()

/-- The `valid_questions` accumulation loop of `generate_quiz`. -/
def procQuestions : List Json → Except Unit (List Json)
  | [] => .ok []
  | q :: rest =>
    match procQuestion q with
    | .error e => .error e
    | .ok none => procQuestions rest
    | .ok (some v) => (procQuestions rest).map (v :: ·)

/-- `for q in questions`: what the iteration yields, `none` when the value
is not iterable (raising `TypeError`). -/
def pyIterTop : Json → Option (List Json)
  | .arr xs => some xs
  | .str s => some (s.map (fun c => Json.str [c]))
  | .obj kvs => some (kvs.map (fun kv => Json.str kv.1))
  | _ => none

/-- The preamble of `generate_quiz` before the attempt loop (building
`content_summary`), which runs outside the `try` and raises when
`keyPoints` is a truthy non-iterable or `explanation` is not sliceable. -/
def quizPrelude (content : Json) : Except Unit Unit :=
  match content with
  | .obj kvs =>
    match dictGetD kvs "keyPoints".toList (.arr []) with
    | .arr _ | .str _ | .obj _ =>
      match dictGetD kvs "explanation".toList (.str []) with
      | .str _ | .arr _ => .ok ()
      | _ => .error ()
    | _ => .error ()
  | _ => .error ()

/-- One attempt of `generate_quiz`'s loop: `some out` is the early
`return valid_questions + short_answers`; `none` means the attempt fell
through (parse failure, exception, or no valid questions and no short
answers) and the loop continues. -/
def quizAttempt (response : Str) : Option (List Json) :=
  match extract_json_from_response response with
  | .error _ => none
  | .ok (.obj kvs) =>
    match pyIterTop (dictGetD kvs "questions".toList (.arr [])) with
    | none => none
    | some qlist =>
      match procQuestions qlist with
      | .error _ => none
      | .ok valids =>
        match dictGetD kvs "short_answer".toList (.arr []) with
        | .arr sas => if valids.isEmpty && sas.isEmpty then none else some (valids ++ sas)
        | _ => none
  | .ok _ => none

/-- The deterministic fallback question of `generate_quiz`; raises
(`IndexError`) for a non-empty all-whitespace title. -/
def fallbackQuestion (title : Str) : Except Unit Json :=
  match (if title.isEmpty then some ("this topic".toList) else (pySplitWs title).head?) with
  | none => .error ()
  | some w =>
    .ok (.obj
      [("type".toList, .str "mcq".toList),
       ("difficulty".toList, .num 1),
       ("question_type".toList, .str "recall".toList),
       ("id".toList, .str "q1".toList),
       ("question".toList,
         .str ("What is the main focus of the lesson \x27".toList ++ title ++ "\x27?".toList)),
       ("options".toList,
         .arr [.str ("A) Understanding the core concepts of ".toList ++ w),
               .str "B) Learning unrelated historical facts".toList,
               .str "C) Practicing advanced mathematics only".toList,
               .str "D) None of the above".toList]),
       ("correctAnswer".toList, .num 0),
       ("explanation".toList,
         .str ("This lesson focuses on ".toList ++ title ++
           ", covering its key concepts and applications.".toList))])

/-- `ai_generator.generate_quiz`, as a function of the two attempt
responses. -/
def generate_quiz (title : Str) (content : Json) (r0 r1 : Str) :
    Except Unit (List Json) :=
  match quizPrelude content with
  | .error e => .error e
  | .ok _ =>
    match quizAttempt r0 with
    | some out => .ok out
    | none =>
      match quizAttempt r1 with
      | some out => .ok out
      | none =>
        match fallbackQuestion title with
        | .error e => .error e
        | .ok q => .ok [q]

/-! ### C6 -/

theorem quizAttempt_ne_nil (r : Str) (out : List Json)
    (h : quizAttempt r = some out) : out ≠ [] := by
  unfold quizAttempt at h
  split at h
  · cases h
  · split at h
    · cases h
    · split at h
      · cases h
      · split at h
        · split at h
          · cases h
          next hcond =>
            rw [Option.some.injEq] at h
            intro hnil
            rw [← h] at hnil
            have := List.append_eq_nil.mp hnil
            simp [this.1, this.2] at hcond
        · cases h
  · cases h

/--
C6.  `generate_quiz` never returns an empty list: every successful return is
non-empty (each attempt returns only a non-empty `valid + short_answers`
list), and when both attempts yield nothing — in particular when every
generated question is rejected by validation on the first attempt and the
retry still yields no valid question — the result is exactly the single
deterministic fallback question, whose text embeds the lesson title.
-/
theorem c6_quiz_never_empty (title : Str) (content : Json) (r0 r1 : Str) :
    (∀ l, generate_quiz title content r0 r1 = .ok l → l ≠ []) ∧
    (quizPrelude content = .ok () → quizAttempt r0 = none → quizAttempt r1 = none →
      ∀ q, fallbackQuestion title = .ok q →
        generate_quiz title content r0 r1 = .ok [q]) := by
  constructor
  · intro l h
    unfold generate_quiz at h
    split at h
    · cases h
    · split at h
      next out hout =>
        rw [Except.ok.injEq] at h
        exact h ▸ quizAttempt_ne_nil r0 out hout
      · split at h
        next out hout =>
          rw [Except.ok.injEq] at h
          exact h ▸ quizAttempt_ne_nil r1 out hout
        · split at h
          · cases h
          · rw [Except.ok.injEq] at h
            rw [← h]
            simp
  · intro hp h0 h1 q hq
    unfold generate_quiz
    simp only [hp, h0, h1, hq]

/-- C6 witness: the fallback case at a concrete title, empty content and
unparseable responses. -/
theorem c6_quiz_never_empty_witness :
    generate_quiz "T".toList (.obj []) "x".toList "x".toList =
      .ok [.obj
        [("type".toList, .str "mcq".toList),
         ("difficulty".toList, .num 1),
         ("question_type".toList, .str "recall".toList),
         ("id".toList, .str "q1".toList),
         ("question".toList,
           .str ("What is the main focus of the lesson \x27T\x27?".toList)),
         ("options".toList,
           .arr [.str "A) Understanding the core concepts of T".toList,
                 .str "B) Learning unrelated historical facts".toList,
                 .str "C) Practicing advanced mathematics only".toList,
                 .str "D) None of the above".toList]),
         ("correctAnswer".toList, .num 0),
         ("explanation".toList,
           .str ("This lesson focuses on T, covering its key concepts and applications.".toList))]] :=
  (c6_quiz_never_empty "T".toList (.obj []) "x".toList "x".toList).2 rfl rfl rfl _ rfl

/-! ### C10 -/

/-- Trailing-whitespace strip (the second half of `pyStrip`). -/
def stripTrail (s : Str) : Str := (s.reverse.dropWhile pySpace).reverse

theorem pyStrip_as_stripTrail (s : Str) :
    pyStrip s = stripTrail (s.dropWhile pySpace) := rfl

theorem dropWhile_append_full (p : Char → Bool) :
    ∀ (xs ys : Str), (xs ++ ys).dropWhile p =
      if (xs.dropWhile p).isEmpty then ys.dropWhile p else xs.dropWhile p ++ ys
  | [], ys => by simp
  | x :: xs, ys => by
    by_cases hx : p x
    · simp only [List.cons_append, List.dropWhile_cons, hx, if_true]
      exact dropWhile_append_full p xs ys
    · simp [List.cons_append, List.dropWhile_cons, hx]

theorem isEmpty_reverse (u : Str) : u.reverse.isEmpty = u.isEmpty := by
  cases u with
  | nil => rfl
  | cons a l => simp

theorem stripTrail_cons (c : Char) (t : Str) :
    stripTrail (c :: t) =
      if (stripTrail t).isEmpty then (if pySpace c then [] else [c])
      else c :: stripTrail t := by
  unfold stripTrail
  rw [List.reverse_cons, dropWhile_append_full,
    isEmpty_reverse (t.reverse.dropWhile pySpace)]
  by_cases hemp : (t.reverse.dropWhile pySpace).isEmpty
  · rw [if_pos hemp, if_pos hemp]
    by_cases hc : pySpace c
    · simp [List.dropWhile, hc]
    · simp [List.dropWhile, hc]
  · rw [if_neg hemp, if_neg hemp]
    rw [List.reverse_append]
    rfl

/-- Any option of the form `letter ++ ") " ++ rest` (letter in A–D) is
classified a placeholder: after stripping and lowercasing it either equals
the two-character pattern `"x)"` (when the rest is all whitespace — or is
caught by the length-3 rule) or starts with `"x) "`. -/
theorem is_placeholder_letter (L l : Char) (rest : Str)
    (hL : pySpace L = false) (hlow : Char.toLower L = l)
    (hpat : [l, ')'] ∈ placeholderPats) :
    is_placeholder_option (L :: ')' :: ' ' :: rest) = true := by
  have hdrop : (L :: ')' :: ' ' :: rest).dropWhile pySpace =
      L :: ')' :: ' ' :: rest := by
    simp [List.dropWhile_cons, hL]
  have base : pyStrip (L :: ')' :: ' ' :: rest) =
      stripTrail (L :: ')' :: ' ' :: rest) := by
    rw [pyStrip_as_stripTrail, hdrop]
  by_cases hrest : (stripTrail rest).isEmpty
  · have h1 : stripTrail (' ' :: rest) = [] := by
      rw [stripTrail_cons, if_pos hrest]
      simp [pySpace]
    have h2 : stripTrail (')' :: ' ' :: rest) = [')'] := by
      rw [stripTrail_cons, h1]
      simp [pySpace]
    have h3 : stripTrail (L :: ')' :: ' ' :: rest) = [L, ')'] := by
      rw [stripTrail_cons, h2]
      simp
    unfold is_placeholder_option
    rw [base, h3]
    simp [pyLower]
  · have h1 : stripTrail (' ' :: rest) = ' ' :: stripTrail rest := by
      rw [stripTrail_cons, if_neg hrest]
    have h2 : stripTrail (')' :: ' ' :: rest) = ')' :: ' ' :: stripTrail rest := by
      rw [stripTrail_cons, h1]
      simp
    have h3 : stripTrail (L :: ')' :: ' ' :: rest) = L :: ')' :: ' ' :: stripTrail rest := by
      rw [stripTrail_cons, h2]
      simp
    unfold is_placeholder_option
    rw [base, h3]
    have hlen : (pyLower (L :: ')' :: ' ' :: stripTrail rest)).length =
        3 + (stripTrail rest).length := by
      simp [pyLower]
      omega
    have hne : ¬ (pyLower (L :: ')' :: ' ' :: stripTrail rest)).length ≤ 3 := by
      rw [hlen]
      have : (stripTrail rest).length ≠ 0 := by
        intro h0
        exact hrest (List.isEmpty_iff.mpr (List.length_eq_zero.mp h0))
      omega
    rw [if_neg hne]
    rw [List.any_eq_true]
    refine ⟨[l, ')'], hpat, ?_⟩
    have h2 : ([l, ')'] ++ [' ']).isPrefixOf
        (pyLower (L :: ')' :: ' ' :: stripTrail rest)) = true := by
      simp only [pyLower, List.map_cons, List.cons_append, List.nil_append]
      rw [hlow]
      simp [List.isPrefixOf]
    rw [h2, Bool.or_true]

theorem optsAsStrs_letter_placeholder :
    ∀ opts : List Json,
      (∀ j ∈ opts, ∃ (L : Char) (r : Str),
        (L = 'A' ∨ L = 'B' ∨ L = 'C' ∨ L = 'D') ∧ j = .str (L :: ')' :: ' ' :: r)) →
      ∃ strs, optsAsStrs opts = some strs ∧ strs.all is_placeholder_option = true
  | [], _ => ⟨[], rfl, rfl⟩
  | j :: rest, hfmt => by
    obtain ⟨L, r, hL, hj⟩ := hfmt j (List.mem_cons_self _ _)
    obtain ⟨strs, hstrs, hall⟩ := optsAsStrs_letter_placeholder rest
      (fun x hx => hfmt x (List.mem_cons_of_mem _ hx))
    subst hj
    refine ⟨(L :: ')' :: ' ' :: r) :: strs, ?_, ?_⟩
    · simp [optsAsStrs, hstrs]
    · rw [List.all_cons, hall, Bool.and_true]
      rcases hL with rfl | rfl | rfl | rfl <;>
        exact is_placeholder_letter _ _ r rfl rfl (by decide)

/--
C10.  Options in the exact `"A) ..."`, `"B) ..."`, `"C) ..."`, `"D) ..."`
format that the generation prompts request are always classified as
placeholders (`opt_clean.startswith("x)" + " ")` matches the letter prefix
itself), so a question whose options all follow the requested format is
rejected by the quiz validation no matter what text follows the prefix.
-/
theorem c10_letter_options_rejected :
    (∀ (L : Char) (rest : Str), (L = 'A' ∨ L = 'B' ∨ L = 'C' ∨ L = 'D') →
      is_placeholder_option (L :: ')' :: ' ' :: rest) = true) ∧
    (∀ (kvs : List (Str × Json)) (opts : List Json),
      dictGetD kvs "options".toList (.arr []) = .arr opts →
      opts ≠ [] →
      (∀ j ∈ opts, ∃ (L : Char) (r : Str),
        (L = 'A' ∨ L = 'B' ∨ L = 'C' ∨ L = 'D') ∧ j = .str (L :: ')' :: ' ' :: r)) →
      procQuestion (.obj kvs) = .ok none) := by
  constructor
  · intro L rest hL
    rcases hL with rfl | rfl | rfl | rfl <;>
      exact is_placeholder_letter _ _ rest rfl rfl (by decide)
  · intro kvs opts hop hne hfmt
    obtain ⟨strs, hstrs, hall⟩ := optsAsStrs_letter_placeholder opts hfmt
    simp only [procQuestion, hop]
    rw [if_neg (by simpa [List.isEmpty_iff] using hne)]
    simp only [hstrs]
    rw [if_pos hall]

/-- C10 witness: a substantive geography question whose options follow the
prompt's letter format is rejected. -/
theorem c10_letter_options_rejected_witness :
    procQuestion (.obj
      [("question".toList, .str "Which city is the capital of France?".toList),
       ("options".toList,
         .arr [.str "A) Paris, the capital since 987 AD".toList,
               .str "B) Lyon, the ancient Roman capital".toList,
               .str "C) Marseille, the oldest French city".toList,
               .str "D) Bordeaux, the wine capital".toList])]) = .ok none :=
  (c10_letter_options_rejected).2 _ _ rfl (by simp)
    (fun j hj => by
      simp only [List.mem_cons, List.mem_singleton, List.not_mem_nil, or_false] at hj
      rcases hj with rfl | rfl | rfl | rfl
      · exact ⟨'A', "Paris, the capital since 987 AD".toList, Or.inl rfl, rfl⟩
      · exact ⟨'B', "Lyon, the ancient Roman capital".toList, Or.inr (Or.inl rfl), rfl⟩
      · exact ⟨'C', "Marseille, the oldest French city".toList, Or.inr (Or.inr (Or.inl rfl)), rfl⟩
      · exact ⟨'D', "Bordeaux, the wine capital".toList, Or.inr (Or.inr (Or.inr rfl)), rfl⟩)

/-! ## Job scheduler: `queue_worker.BookQueueWorker.process_book`

The per-job run is modelled against the record store restricted to the one
job being processed: `row` holds the job's `books` record (status and
processing step; `none` once the owner has deleted it) and `courseSaved`
records whether `create_course` has run.  A supabase `update` filtered with
`eq` on a deleted record matches zero rows without raising, so updates on a
missing row are no-ops, and `insert` does not consult the book's existence.
The owner's deletion is asynchronous; it is modelled by the index `d` of
the first existence check that observes the record gone (checks are
numbered from 0 = the run-start check, then one per `on_progress` call),
the record being treated as present for writes issued before that check.
The abstracted parts — download, chapter selection (absent), text
extraction (long enough) — succeed, and the pipeline behind
`process_book_to_course` is reduced to the progress labels it reports,
since it touches the record store only through `on_progress` until
`create_course`. -/

/-- The record store restricted to the processed job. -/
structure BookDb where
  row : Option (Str × Str)
  courseSaved : Bool
  deriving Repr, DecidableEq

/-- `update_book_status(book_id, status, step)`: a no-op when the record is
gone. -/
def dbStatus (db : BookDb) (status step : Str) : BookDb :=
  match db.row with
  | some _ => ⟨some (status, step), db.courseSaved⟩
  | none => db

/-- `update_book_status(book_id, status)` without a step. -/
def dbStatusOnly (db : BookDb) (status : Str) : BookDb :=
  match db.row with
  | some (_, step) => ⟨some (status, step), db.courseSaved⟩
  | none => db

/-- `update_book_progress(book_id, step)`. -/
def dbProgress (db : BookDb) (step : Str) : BookDb :=
  match db.row with
  | some (status, _) => ⟨some (status, step), db.courseSaved⟩
  | none => db

/-- A run in progress: the store plus the number of existence checks made. -/
structure RunState where
  db : BookDb
  checks : Nat

/-- `check_book_exists` at check number `n` against deletion point `d`. -/
def checkAlive (d : Option Nat) (n : Nat) : Bool :=
  match d with
  | none => true
  | some dd => decide (n < dd)

/-- `process_book.on_progress(step)`: re-check existence — raising
`Exception("Book was deleted")` when the record is gone — then persist the
step label. -/
def onProgress (d : Option Nat) (st : RunState) (step : Str) :
    Except RunState RunState :=
  if checkAlive d st.checks then
    .ok ⟨dbProgress st.db step, st.checks + 1⟩
  else
    .error ⟨⟨none, st.db.courseSaved⟩, st.checks + 1⟩

/-- The successive `on_progress` calls of a run. -/
def runCallbacks (d : Option Nat) : List Str → RunState → Except RunState RunState
  | [], st => .ok st
  | step :: rest, st =>
    match onProgress d st step with
    | .error st2 => .error st2
    | .ok st2 => runCallbacks d rest st2

/-- `queue_worker.BookQueueWorker.process_book` for a job whose download and
text extraction succeed and whose pipeline reports `pipeSteps`: the
run-start existence check (silent return when it fails), the `processing`
status write and download label, the `on_progress` sequence — text
extraction, AI-processing start, the pipeline's own labels, course saving —
then `create_course`/`create_chapter`/`create_lesson` and the `ready`
status; the surrounding `except` handler writes an `error` status with the
truncated message. -/
def process_book (d : Option Nat) (pipeSteps : List Str) : BookDb :=
  if checkAlive d 0 then
    match runCallbacks d
        ("Extracting text from PDF...".toList ::
          "Starting AI processing...".toList ::
          (pipeSteps ++ ["Saving course to database...".toList]))
        ⟨dbProgress
            (dbStatusOnly ⟨some ("queued".toList, []), false⟩ "processing".toList)
            "Downloading PDF...".toList, 1⟩ with
    | .ok st => dbStatus ⟨st.db.row, true⟩ "ready".toList "Complete!".toList
    | .error st => dbStatus st.db "error".toList "Error: Book was deleted".toList
  else ⟨none, false⟩

/-! ### C4 -/

theorem runCallbacks_deleted (dd : Nat) :
    ∀ (steps : List Str) (st : RunState),
      st.db.courseSaved = false → dd < st.checks + steps.length → st.checks ≤ dd →
      ∃ n, runCallbacks (some dd) steps st = .error ⟨⟨none, false⟩, n⟩
  | [], st, _, hlt, hle => by simp only [List.length_nil] at hlt; omega
  | step :: rest, st, hsv, hlt, hle => by
    by_cases hc : st.checks < dd
    · have halive : checkAlive (some dd) st.checks = true := by
        simp [checkAlive, hc]
      have hstep : onProgress (some dd) st step =
          .ok ⟨dbProgress st.db step, st.checks + 1⟩ := by
        unfold onProgress
        rw [if_pos halive]
      have hsv2 : (dbProgress st.db step).courseSaved = false := by
        unfold dbProgress
        cases hr : st.db.row with
        | none => simp [hr] at hsv ⊢; exact hsv
        | some p => cases p; simpa using hsv
      obtain ⟨n, hn⟩ := runCallbacks_deleted dd rest ⟨dbProgress st.db step, st.checks + 1⟩
        hsv2
        (by show dd < st.checks + 1 + rest.length
            simp only [List.length_cons] at hlt; omega)
        (by show st.checks + 1 ≤ dd; omega)
      refine ⟨n, ?_⟩
      unfold runCallbacks
      rw [hstep]
      exact hn
    · have hdead : checkAlive (some dd) st.checks = false := by
        simp [checkAlive]; omega
      refine ⟨st.checks + 1, ?_⟩
      unfold runCallbacks onProgress
      rw [hdead]
      simp [hsv]

/--
C4.  When the job record is deleted mid-run and the deletion is detected at
one of the scheduler's progress callbacks (check number `1 ≤ d ≤ 3 + number
of pipeline callbacks`, i.e. any callback from text extraction up to and
including the course-saving label), the final store is `⟨none, false⟩`: no
course record was persisted, and the job's record no longer exists, so no
error status or message is recorded for it — the `except` handler's
`update_book_status(book_id, "error", ...)` matches zero rows and is a
no-op.
-/
theorem c4_cancellation_silent (pipeSteps : List Str) (dd : Nat)
    (h1 : 1 ≤ dd) (h2 : dd ≤ 3 + pipeSteps.length) :
    process_book (some dd) pipeSteps = ⟨none, false⟩ := by
  unfold process_book
  rw [if_pos (by simp [checkAlive]; omega)]
  obtain ⟨n, hn⟩ := runCallbacks_deleted dd
    ("Extracting text from PDF...".toList ::
      "Starting AI processing...".toList ::
      (pipeSteps ++ ["Saving course to database...".toList]))
    ⟨dbProgress
        (dbStatusOnly ⟨some ("queued".toList, []), false⟩ "processing".toList)
        "Downloading PDF...".toList, 1⟩
    rfl
    (by show dd < 1 +
          ("Extracting text from PDF...".toList ::
            "Starting AI processing...".toList ::
            (pipeSteps ++ ["Saving course to database...".toList])).length
        simp only [List.length_cons, List.length_append, List.length_cons,
          List.length_nil]
        omega)
    (by show 1 ≤ dd; omega)
  rw [hn]
  rfl

/-- C4 witness: deletion detected at the very first progress callback of a
pipeline with no callbacks of its own. -/
theorem c4_cancellation_silent_witness :
    process_book (some 1) [] = ⟨none, false⟩ :=
  c4_cancellation_silent [] 1 (by decide) (by decide)

/-! ## `ai_generator.process_book_to_course`

The whole pipeline as a function of the book text, title, user tier and an
oracle `Nat → Str` giving the k-th model response of the run (prompt text is
not observable, so responses are indexed by call order; the progress
callback is `None`).  Shapes that make the Python raise where nothing
catches (`.get` on a non-dict, iterating a non-iterable, joining non-string
topic lists into the next prompt) are embedded as `Except.error`. -/

/-- The model-response oracle of one pipeline run. -/
abbrev Orc := Nat → Str

/-- A JSON array whose elements must all be strings. -/
def strListOf : List Json → Option (List Str)
  | [] => some []
  | .str s :: rest => (strListOf rest).map (s :: ·)
  | _ :: _ => none

/-- The topics/concepts/summaries accumulation at the top of
`generate_book_overview` (feeding `', '.join(...)` in the prompt, which
needs string elements). -/
def collectTopicsConcepts : List Json → Option (List Str × List Str × List Str)
  | [] => some ([], [], [])
  | .obj kvs :: rest => do
    let ts ← match dictGetD kvs "topics".toList (.arr []) with
      | .arr xs => strListOf xs
      | _ => none
    let cs ← match dictGetD kvs "concepts".toList (.arr []) with
      | .arr xs => strListOf xs
      | _ => none
    let sm ← match dictGetD kvs "summary".toList (.str []) with
      | .str s => some s
      | _ => none
    let r ← collectTopicsConcepts rest
    some (ts ++ r.1, cs ++ r.2.1, sm :: r.2.2)
  | _ :: _ => none

/-- `list(set(xs))` modelled with first-occurrence order (set iteration
order is unspecified; only the deduplicated contents matter downstream). -/
def dedupGo (seen : List Str) : List Str → List Str
  | [] => []
  | x :: rest => if x ∈ seen then dedupGo seen rest else x :: dedupGo (x :: seen) rest

/-- Deduplicate keeping first occurrences. -/
def dedup (xs : List Str) : List Str := dedupGo [] xs

/-- `ai_generator.generate_book_overview`, as a function of the chunk
summaries and the model response. -/
def generate_book_overview (summaries : List Json) (response : Str) :
    Except Unit Json :=
  match collectTopicsConcepts summaries with
  | none => .error ()
  | some (topics, concepts, _) =>
    match jsonLoads (pyStrip (fenceExtract response)) with
    | some j => .ok j
    | none =>
      .ok (.obj
        [("title".toList, .str "Course from Book".toList),
         ("main_themes".toList, .arr (((dedup topics).take 5).map .str)),
         ("key_concepts".toList, .arr (((dedup concepts).take 10).map .str)),
         ("target_audience".toList, .str "General readers".toList),
         ("learning_objectives".toList, .arr [])])

/-- Decimal representation of a natural number. -/
def natToStr (n : Nat) : Str := (Nat.repr n).toList

/-- One lesson of the structure fallback, derived from a topic of the
chunk's summary. -/
def structureFallbackLesson (i : Nat) (topicJ : Json) : Json :=
  .obj [("title".toList, topicJ),
        ("topics_to_cover".toList, .arr [topicJ]),
        ("source_chunk_indices".toList, .arr [.num (Int.ofNat i)])]

/-- `summary.get("topics", ["Main Content"])[:3]`: slicing needs a list or a
string (yielding single-character strings). -/
def topicsForFallback : Json → Except Unit (List Json)
  | .arr xs => .ok (xs.take 3)
  | .str s => .ok ((s.take 3).map (fun c => Json.str [c]))
  | _ => .error ()

/-- One chapter of the structure fallback. -/
def structureFallbackChapter (i : Nat) (summary : Json) : Except Unit Json :=
  match summary with
  | .obj kvs =>
    match (match dictGetD kvs "summary".toList (.str []) with
      | .str s => some (Json.str (s.take 200))
      | .arr xs => some (Json.arr (xs.take 200))
      | _ => none) with
    | none => .error ()
    | some desc =>
      match topicsForFallback
          (dictGetD kvs "topics".toList (.arr [.str "Main Content".toList])) with
      | .error e => .error e
      | .ok tps =>
        .ok (.obj
          [("title".toList, .str ("Chapter ".toList ++ natToStr (i + 1))),
           ("description".toList, desc),
           ("lessons".toList, .arr (tps.map (structureFallbackLesson i)))])
  | _ => .error ()

/-- The chapters of the structure fallback (first five chunk summaries). -/
def structureFallbackChapters : Nat → List Json → Except Unit (List Json)
  | _, [] => .ok []
  | i, s :: rest =>
    match structureFallbackChapter i s with
    | .error e => .error e
    | .ok ch =>
      match structureFallbackChapters (i + 1) rest with
      | .error e => .error e
      | .ok more => .ok (ch :: more)

/-- `ai_generator.generate_course_structure`, as a function of the chunk
summaries and the model response. -/
def generate_course_structure (summaries : List Json) (response : Str) :
    Except Unit Json :=
  match jsonLoads (pyStrip (fenceExtract response)) with
  | some j => .ok j
  | none =>
    match structureFallbackChapters 0 (summaries.take 5) with
    | .error e => .error e
    | .ok chs => .ok (.obj [("chapters".toList, .arr chs)])

/-- The final fallback of `generate_lesson_content_preserve`. -/
def preserveFallback (title : Str) (topics : List Str) (source : Str) : Json :=
  .obj
    [("introduction".toList, .str
       ("This lesson covers ".toList ++ title ++ ", focusing on ".toList ++
        (if topics.isEmpty then "essential concepts".toList
         else List.intercalate ", ".toList (topics.take 2)) ++
        ". Understanding these fundamentals is crucial for your learning journey.".toList)),
     ("explanation".toList, .str
       ("In studying ".toList ++ title ++ ", we explore several important concepts. ".toList ++
        (if source.isEmpty then
          "The material covers foundational principles that build upon each other.".toList
         else source.take 1500))),
     ("key_concepts".toList, .arr ((topics.take 3).map (fun t =>
       .obj [("term".toList, .str t),
             ("definition".toList, .str ("A fundamental concept in ".toList ++ title))]))),
     ("examples".toList, .arr []),
     ("keyPoints".toList, .arr ((topics.take 3).map (fun t =>
       .obj [("title".toList, .str ("Understanding ".toList ++ t)),
             ("description".toList, .str ("Master the core principles of ".toList ++ t))]))),
     ("summary".toList, .str
       ("This lesson covered the essential aspects of ".toList ++ title ++
        ". Review the key concepts and ensure you understand how they connect.".toList)),
     ("before_you_move_on".toList, .arr ((topics.take 3).map (fun t =>
       .str ("Make sure you understand ".toList ++ t))))]

/-- The final fallback of `generate_lesson_content_enhance`. -/
def enhanceFallback (title : Str) (topics : List Str) (source : Str) : Json :=
  .obj
    [("introduction".toList, .str
       ("This lesson covers ".toList ++ title ++
        ", an important topic that will help you develop practical skills. Understanding these concepts is essential for real-world applications.".toList)),
     ("explanation".toList, .str
       ("Let\x27s dive into ".toList ++ title ++ ". ".toList ++
        (if source.isEmpty then
          "This topic encompasses several key principles that work together.".toList
         else source.take 1500))),
     ("key_concepts".toList, .arr ((topics.take 3).map (fun t =>
       .obj [("term".toList, .str t),
             ("definition".toList, .str
               ("A core concept in ".toList ++ title ++ " that you need to master".toList))]))),
     ("examples".toList, .arr
       [.obj [("title".toList, .str
                ("Applying ".toList ++ (topics.headD title))),
              ("content".toList, .str "Consider how this applies in practice...".toList)]]),
     ("common_mistakes".toList, .arr
       [.obj [("mistake".toList, .str "Rushing without understanding fundamentals".toList),
              ("correction".toList, .str "Take time to understand each concept before moving on".toList)]]),
     ("actionable_steps".toList, .arr
       [.obj [("step".toList, .str
                ("Practice ".toList ++ (topics.headD "the concepts".toList))),
              ("details".toList, .str "Work through examples to reinforce your understanding".toList)]]),
     ("keyPoints".toList, .arr ((topics.take 3).map (fun t =>
       .obj [("title".toList, .str ("Master ".toList ++ t)),
             ("description".toList, .str
               ("Understanding ".toList ++ t ++ " is crucial for applying these concepts".toList))]))),
     ("summary".toList, .str
       ("This lesson covered ".toList ++ title ++
        ". Apply what you\x27ve learned through practice and review.".toList)),
     ("before_you_move_on".toList, .arr ((topics.take 3).map (fun t =>
       .str ("Verify you understand ".toList ++ t))))]

/-- `ai_generator.generate_lesson_content` (both modes share the two-attempt
loop; only the prompt — not modelled — and the final fallback differ), as a
function of the two attempt responses. -/
def generate_lesson_content_run (preserveMode : Bool) (title : Str)
    (topics : List Str) (source : Str) (r0 r1 : Str) : Except Unit Json :=
  match extract_json_from_response r0 with
  | .ok c => validate_lesson_content c title topics
  | .error _ =>
    match extract_json_from_response r1 with
    | .ok c => validate_lesson_content c title topics
    | .error _ =>
      .ok (if preserveMode then preserveFallback title topics source
           else enhanceFallback title topics source)

/-- `int(i) for i in chunk_indices if str(i).isdigit()`: the index an
element contributes, if any. -/
def toIdx : Json → Option Nat
  | .num n => if 0 ≤ n then some n.toNat else none
  | .str s => if !s.isEmpty && s.all Char.isDigit then some (digitsVal s) else none
  | _ => none

/-- The lesson's source text: the selected chunks joined with blank lines. -/
def lessonSourceText (chunks : List Str) (idxJ : Json) : Except Unit Str :=
  match pyIterTop idxJ with
  | none => .error ()
  | some elems =>
    .ok (List.intercalate parSep
      (((elems.filterMap toIdx).filter (fun i => i < chunks.length)).map
        (fun i => chunks.getD i [])))

/-- `content.pop("common_mistakes", None)` etc. for free-tier jobs. -/
def stripExtras (kvs : List (Str × Json)) : List (Str × Json) :=
  dictPop (dictPop (dictPop kvs "common_mistakes".toList)
    "actionable_steps".toList) "before_you_move_on".toList

/-- The number of completion calls one content/quiz generation consumed:
one when the first attempt's extraction succeeded, else two. -/
def attemptCalls (firstOk : Bool) : Nat := if firstOk then 1 else 2

/-- The lesson content the pipeline persists: verbatim on paid tiers, the
three premium keys popped on the free tier. -/
def lessonContent2 (isPaid : Bool) (contentKvs : List (Str × Json)) :
    List (Str × Json) :=
  if isPaid then contentKvs else stripExtras contentKvs

/-- The oracle index after the content-generation attempts of a lesson that
started at index `k`. -/
def lessonK1 (o : Orc) (k : Nat) : Nat :=
  k + attemptCalls (extract_json_from_response (o k)).isOk

/-- The per-lesson body of `process_book_to_course`'s loop: source-text
assembly, content generation, the free-tier strip, and quiz generation,
threading the oracle index. -/
def processLesson (o : Orc) (isPaid preserveMode : Bool) (chunks : List Str)
    (k : Nat) (lessonKvs : List (Str × Json)) :
    Except Unit (List (Str × Json) × Nat) :=
  match dictGet lessonKvs "title".toList with
  | none => .error ()
  | some titleJ =>
    match titleJ with
    | .str title =>
      match (match dictGetD lessonKvs "topics_to_cover".toList (.arr []) with
        | .arr xs => strListOf xs
        | _ => none) with
      | none => .error ()
      | some topics =>
        match lessonSourceText chunks
            (dictGetD lessonKvs "source_chunk_indices".toList (.arr [.num 0])) with
        | .error e => .error e
        | .ok source =>
          match generate_lesson_content_run preserveMode title topics source
              (o k) (o (k + 1)) with
          | .error e => .error e
          | .ok content =>
            match content with
            | .obj contentKvs =>
              match generate_quiz title (.obj (lessonContent2 isPaid contentKvs))
                  (o (lessonK1 o k)) (o (lessonK1 o k + 1)) with
              | .error e => .error e
              | .ok quiz =>
                .ok (dictSet (dictSet lessonKvs "content".toList
                    (.obj (lessonContent2 isPaid contentKvs)))
                  "quiz".toList (.arr quiz),
                  lessonK1 o k + attemptCalls (quizAttempt (o (lessonK1 o k))).isSome)
            | _ => .error ()
    | _ => .error ()

/-- The lessons of one chapter, in order. -/
def processLessons (o : Orc) (isPaid preserveMode : Bool) (chunks : List Str) :
    Nat → List Json → Except Unit (List Json × Nat)
  | k, [] => .ok ([], k)
  | k, l :: rest =>
    match l with
    | .obj lessonKvs =>
      match processLesson o isPaid preserveMode chunks k lessonKvs with
      | .error e => .error e
      | .ok (l2, k2) =>
        match processLessons o isPaid preserveMode chunks k2 rest with
        | .error e => .error e
        | .ok (ls, k3) => .ok (.obj l2 :: ls, k3)
    | _ => .error ()

/-- The chapters of the generated structure, in order, with each chapter's
lessons replaced by their processed versions (the in-place mutation of the
source). -/
def processChapters (o : Orc) (isPaid preserveMode : Bool) (chunks : List Str) :
    Nat → List Json → Except Unit (List Json × Nat)
  | k, [] => .ok ([], k)
  | k, ch :: rest =>
    match ch with
    | .obj chKvs =>
      match dictGetD chKvs "lessons".toList (.arr []) with
      | .arr lessons =>
        match processLessons o isPaid preserveMode chunks k lessons with
        | .error e => .error e
        | .ok (ls2, k2) =>
          match processChapters o isPaid preserveMode chunks k2 rest with
          | .error e => .error e
          | .ok (chs, k3) =>
            .ok (.obj (dictSet chKvs "lessons".toList (.arr ls2)) :: chs, k3)
      | _ => .error ()
    | _ => .error ()

/-- The per-chunk summarization loop: one completion call per chunk. -/
def summarizeAll (o : Orc) : Nat → Nat → List Json
  | _, 0 => []
  | k, n + 1 => summarize_chunk (o k) :: summarizeAll o (k + 1) n

/-- `user_tier in ("basic", "pro")`. -/
def isPaidTier (t : Str) : Bool := (t == "basic".toList) || (t == "pro".toList)

/-- The final `{"overview", "structure", "quality"}` record the pipeline
returns. -/
def assembleResult (overview : Json) (sKvs : List (Str × Json))
    (chapters2 : List Json) (qualityKvs : List (Str × Json)) : Json :=
  .obj [("overview".toList, overview),
        ("structure".toList, .obj (dictSet sKvs "chapters".toList (.arr chapters2))),
        ("quality".toList, .obj qualityKvs)]

/-- `ai_generator.process_book_to_course(book_text, book_title, None,
user_tier)` driven by the response oracle `o`. -/
def process_book_to_course (o : Orc) (bookText bookTitle userTier : Str) :
    Except Unit Json :=
  let isPaid := isPaidTier userTier
  let chunks := chunk_text 8000 300 bookText
  let summaries := summarizeAll o 0 chunks.length
  match detect_quality (o chunks.length) with
  | .obj qkvs =>
    let qualityKvs :=
      if isPaid then qkvs
      else dictSet (dictSet qkvs "mode".toList (.str "PRESERVE".toList))
        "reasoning".toList (.str "Free tier uses PRESERVE mode".toList)
    let preserveMode :=
      if isPaid then jsonEqStr (dictGetD qkvs "mode".toList (.str "ENHANCE".toList)) "PRESERVE".toList
      else true
    match generate_book_overview summaries (o (chunks.length + 1)) with
    | .error e => .error e
    | .ok overview0 =>
      match (if bookTitle.isEmpty then Except.ok overview0
        else match overview0 with
          | .obj okvs => Except.ok (Json.obj (dictSet okvs "title".toList (.str bookTitle)))
          | _ => Except.error ()) with
      | .error e => .error e
      | .ok overview =>
        match generate_course_structure summaries (o (chunks.length + 2)) with
        | .error e => .error e
        | .ok struc =>
          match struc with
          | .obj sKvs =>
            match dictGetD sKvs "chapters".toList (.arr []) with
            | .arr chapters =>
              match processChapters o isPaid preserveMode chunks
                  (chunks.length + 3) chapters with
              | .error e => .error e
              | .ok (chapters2, _) =>
                .ok (assembleResult overview sKvs chapters2 qualityKvs)
            | _ => .error ()
          | _ => .error ()
  | _ => .error ()

/-! ### C8 -/

theorem dictGet_dictPop_self (m : List (Str × Json)) (k : Str) :
    dictGet (dictPop m k) k = none := by
  induction m with
  | nil => rfl
  | cons a rest ih =>
    by_cases ha : a.1 = k
    · simp only [dictPop, List.filter]
      rw [show (decide (a.1 ≠ k)) = false by simp [ha]]
      exact ih
    · simp only [dictPop, List.filter]
      rw [show (decide (a.1 ≠ k)) = true by simp [ha]]
      simp only [dictGet, if_neg ha]
      exact ih

theorem dictGet_dictPop_ne (m : List (Str × Json)) (k k' : Str) (h : k' ≠ k) :
    dictGet (dictPop m k) k' = dictGet m k' := by
  induction m with
  | nil => rfl
  | cons a rest ih =>
    by_cases ha : a.1 = k
    · simp only [dictPop, List.filter]
      rw [show (decide (a.1 ≠ k)) = false by simp [ha]]
      simp only [dictGet]
      rw [if_neg (fun hh : a.1 = k' => h (hh ▸ ha))]
      exact ih
    · simp only [dictPop, List.filter]
      rw [show (decide (a.1 ≠ k)) = true by simp [ha]]
      simp only [dictGet]
      by_cases ha' : a.1 = k'
      · rw [if_pos ha', if_pos ha']
      · rw [if_neg ha', if_neg ha']
        exact ih

/-- A lesson content free of the three premium keys. -/
def noExtras : Json → Bool
  | .obj ck =>
    (dictGet ck "common_mistakes".toList).isNone &&
    (dictGet ck "actionable_steps".toList).isNone &&
    (dictGet ck "before_you_move_on".toList).isNone
  | _ => false

theorem noExtras_stripExtras (kvs : List (Str × Json)) :
    noExtras (.obj (stripExtras kvs)) = true := by
  simp only [noExtras, stripExtras]
  rw [dictGet_dictPop_ne _ _ _ (by decide), dictGet_dictPop_ne _ _ _ (by decide),
    dictGet_dictPop_self]
  rw [dictGet_dictPop_ne _ _ _ (by decide), dictGet_dictPop_self]
  rw [dictGet_dictPop_self]
  rfl

/-- The content value of one lesson record. -/
def lessonContentOf1 : Json → Option Json
  | .obj lk => dictGet lk "content".toList
  | _ => none

/-- The content values of the lessons of one chapter record. -/
def chapterContents : Json → List Json
  | .obj ck =>
    match dictGet ck "lessons".toList with
    | some (.arr ls) => ls.filterMap lessonContentOf1
    | _ => []
  | _ => []

/-- The content values of all lessons of the returned course record. -/
def lessonContentsOf (res : Json) : List Json :=
  match jGet res "structure".toList with
  | some (.obj sk) =>
    match dictGet sk "chapters".toList with
    | some (.arr chs) => chs.bind chapterContents
    | _ => []
  | _ => []

theorem quality_of_assemble (overview : Json) (sKvs : List (Str × Json))
    (chapters2 : List Json) (qkvs : List (Str × Json)) :
    jGet (assembleResult overview sKvs chapters2 qkvs) "quality".toList =
      some (.obj qkvs) := by
  show dictGet [("overview".toList, overview),
      ("structure".toList, .obj (dictSet sKvs "chapters".toList (.arr chapters2))),
      ("quality".toList, .obj qkvs)] "quality".toList = _
  simp only [dictGet]
  rw [if_neg (by decide), if_neg (by decide), if_pos trivial]

theorem lessonContentsOf_assemble (overview : Json) (sKvs : List (Str × Json))
    (chapters2 : List Json) (qkvs : List (Str × Json)) :
    lessonContentsOf (assembleResult overview sKvs chapters2 qkvs) =
      chapters2.bind chapterContents := by
  show (match jGet (assembleResult overview sKvs chapters2 qkvs) "structure".toList with
    | some (.obj sk) =>
      match dictGet sk "chapters".toList with
      | some (.arr chs) => chs.bind chapterContents
      | _ => []
    | _ => []) = chapters2.bind chapterContents
  rw [show jGet (assembleResult overview sKvs chapters2 qkvs) "structure".toList =
      some (.obj (dictSet sKvs "chapters".toList (.arr chapters2))) from by
    show dictGet [("overview".toList, overview),
        ("structure".toList, .obj (dictSet sKvs "chapters".toList (.arr chapters2))),
        ("quality".toList, .obj qkvs)] "structure".toList = _
    simp only [dictGet]
    rw [if_neg (by decide), if_pos trivial]]
  show (match dictGet (dictSet sKvs "chapters".toList (.arr chapters2))
      "chapters".toList with
    | some (.arr chs) => chs.bind chapterContents
    | _ => []) = chapters2.bind chapterContents
  rw [dictGet_dictSet_self]

theorem processLesson_content (o : Orc) (pm : Bool) (chunks : List Str)
    (k : Nat) (lessonKvs : List (Str × Json)) (l2 : List (Str × Json)) (k2 : Nat)
    (h : processLesson o false pm chunks k lessonKvs = .ok (l2, k2)) :
    ∃ ckvs, dictGet l2 "content".toList = some (.obj (stripExtras ckvs)) := by
  unfold processLesson at h
  repeat' split at h
  all_goals try exact Except.noConfusion h
  all_goals
    (injection h with h2
     injection h2 with h3 h4
     rw [← h3]
     exact ⟨_, by
       rw [dictGet_dictSet_ne _ _ _ _ (by decide), dictGet_dictSet_self]
       rfl⟩)

theorem processLessons_content (o : Orc) (pm : Bool) (chunks : List Str) :
    ∀ (lessons : List Json) (k : Nat) (ls : List Json) (k' : Nat),
      processLessons o false pm chunks k lessons = .ok (ls, k') →
      ∀ l ∈ ls, ∃ lk, l = .obj lk ∧
        ∃ ckvs, dictGet lk "content".toList = some (.obj (stripExtras ckvs))
  | [], k, ls, k', h => by
    unfold processLessons at h
    rw [Except.ok.injEq, Prod.mk.injEq] at h
    obtain ⟨hl, _⟩ := h
    rw [← hl]
    intro l hl2
    cases hl2
  | l :: rest, k, ls, k', h => by
    unfold processLessons at h
    repeat' split at h
    all_goals try exact Except.noConfusion h
    all_goals
      (rename_i x1 l2 k2 hpl x0 ls3 k3 hrec
       injection h with h2
       injection h2 with h3 h4
       rw [← h3]
       intro x hx
       rcases List.mem_cons.mp hx with rfl | hx2
       · exact ⟨l2, rfl, processLesson_content o pm chunks k _ l2 k2 hpl⟩
       · exact processLessons_content o pm chunks rest k2 ls3 k3 hrec x hx2)

theorem processChapters_content (o : Orc) (pm : Bool) (chunks : List Str) :
    ∀ (chapters : List Json) (k : Nat) (cs : List Json) (k' : Nat),
      processChapters o false pm chunks k chapters = .ok (cs, k') →
      ∀ ch ∈ cs, ∃ ck, ch = .obj ck ∧
        ∃ ls2, dictGet ck "lessons".toList = some (.arr ls2) ∧
          ∀ l ∈ ls2, ∃ lk, l = .obj lk ∧
            ∃ ckvs, dictGet lk "content".toList = some (.obj (stripExtras ckvs))
  | [], k, cs, k', h => by
    unfold processChapters at h
    rw [Except.ok.injEq, Prod.mk.injEq] at h
    obtain ⟨hl, _⟩ := h
    rw [← hl]
    intro ch hch
    cases hch
  | ch :: rest, k, cs, k', h => by
    unfold processChapters at h
    repeat' split at h
    all_goals try exact Except.noConfusion h
    all_goals
      (rename_i x2 lessons hGetD x1 ls2 k2 hls x0 chs k3 hrec
       injection h with h2
       injection h2 with h3 h4
       rw [← h3]
       intro x hx
       rcases List.mem_cons.mp hx with rfl | hx2
       · exact ⟨_, rfl, ls2, dictGet_dictSet_self _ _ _,
           processLessons_content o pm chunks lessons k ls2 k2 hls⟩
       · exact processChapters_content o pm chunks rest k2 chs k3 hrec x hx2)

/--
C8, amended.  For every free-tier pipeline run that returns a course
record: the quality verdict's `mode` is overwritten to `PRESERVE` regardless
of the detected average, and every persisted lesson content is stripped of
`common_mistakes`, `actionable_steps` and `before_you_move_on`.  The third
part of the original claim is false: the assessment item count is whatever
survives validation — the basic prompt *requests* 4 questions, but nothing
enforces the count, and the deterministic fallback yields a single item.
-/
theorem c8_free_tier_gating (o : Orc) (bookText bookTitle tier : Str)
    (hfree : isPaidTier tier = false) (res : Json)
    (hok : process_book_to_course o bookText bookTitle tier = .ok res) :
    (jGet res "quality".toList).bind (fun q => jGet q "mode".toList) =
      some (.str "PRESERVE".toList) ∧
    (lessonContentsOf res).all noExtras = true := by
  unfold process_book_to_course at hok
  rw [hfree] at hok
  simp only [Bool.false_eq_true, if_false] at hok
  repeat' split at hok
  all_goals try exact Except.noConfusion hok
  all_goals
    (rename_i hchap
     injection hok with h2
     subst h2
     refine ⟨?_, ?_⟩
     · rw [quality_of_assemble]
       show jGet (.obj (dictSet (dictSet _ "mode".toList
         (.str "PRESERVE".toList)) "reasoning".toList
         (.str "Free tier uses PRESERVE mode".toList))) "mode".toList = _
       show dictGet (dictSet (dictSet _ "mode".toList
         (.str "PRESERVE".toList)) "reasoning".toList
         (.str "Free tier uses PRESERVE mode".toList)) "mode".toList = _
       rw [dictGet_dictSet_ne _ _ _ _ (by decide), dictGet_dictSet_self]
     · rw [lessonContentsOf_assemble, List.all_eq_true]
       intro c hc
       rw [List.mem_bind] at hc
       obtain ⟨ch, hch, hcin⟩ := hc
       obtain ⟨ck, rfl, ls2, hls, hlessons⟩ :=
         processChapters_content o true _ _ _ _ _ hchap ch hch
       simp only [chapterContents, hls] at hcin
       rw [List.mem_filterMap] at hcin
       obtain ⟨l, hlmem, hlv⟩ := hcin
       obtain ⟨lk, rfl, ckvs, hcontent⟩ := hlessons l hlmem
       simp only [lessonContentOf1, hcontent] at hlv
       cases hlv
       exact noExtras_stripExtras ckvs)

/-- A structure response with a single chapter holding a single lesson. -/
def c8structResp : Str :=
  "\x7b\"chapters\":[\x7b\"lessons\":[\x7b\"title\":\"L1\",\"topics_to_cover\":[\"t1\"],\"source_chunk_indices\":[0]\x7d]\x7d]\x7d".toList

/-- An oracle that answers the structure request with `c8structResp` and
everything else with unparseable text. -/
def c8orc : Orc := fun i => if i = 3 then c8structResp else "x".toList

/-- The course record of the concrete free-tier run. -/
def c8res : Json :=
  (process_book_to_course c8orc "hello world".toList "B".toList
    "free".toList).toOption.getD .null

/-- The length of one lesson's quiz array. -/
def lessonQuizLen1 : Json → Option Nat
  | .obj lk =>
    match dictGet lk "quiz".toList with
    | some (.arr qs) => some qs.length
    | _ => none
  | _ => none

/-- The quiz lengths of the lessons of one chapter record. -/
def chapterQuizLens : Json → List Nat
  | .obj ck =>
    match dictGet ck "lessons".toList with
    | some (.arr ls) => ls.filterMap lessonQuizLen1
    | _ => []
  | _ => []

/-- The quiz lengths of all lessons of the returned course record. -/
def lessonQuizLens (res : Json) : List Nat :=
  match jGet res "structure".toList with
  | some (.obj sk) =>
    match dictGet sk "chapters".toList with
    | some (.arr chs) => chs.bind chapterQuizLens
    | _ => []
  | _ => []

set_option maxRecDepth 200000 in
/--
C8, counterexample to the exactly-4-assessment-items part.  A free-tier run
whose quiz responses never parse falls back to the single deterministic
question, so the only lesson's assessment has 1 item, not 4: the basic quiz
prompt requests 4 questions but no code path enforces that count.
-/
theorem c8_counterexample :
    ¬ ∀ (o : Orc) (bookText bookTitle tier : Str) (res : Json),
        isPaidTier tier = false →
        process_book_to_course o bookText bookTitle tier = .ok res →
        (lessonQuizLens res).all (fun n => n == 4) = true := by
  intro hall
  have h1 : process_book_to_course c8orc "hello world".toList "B".toList
      "free".toList = .ok c8res := by rfl
  have h2 := hall c8orc "hello world".toList "B".toList "free".toList c8res rfl h1
  have h3 : (lessonQuizLens c8res).all (fun n => n == 4) = false := by rfl
  rw [h3] at h2
  exact Bool.false_ne_true h2

set_option maxRecDepth 200000 in
/-- Witness for C8: the concrete free-tier run satisfies the amended
conclusion. -/
theorem c8_free_tier_gating_witness :
    (jGet c8res "quality".toList).bind (fun q => jGet q "mode".toList) =
      some (.str "PRESERVE".toList) ∧
    (lessonContentsOf c8res).all noExtras = true :=
  c8_free_tier_gating c8orc "hello world".toList "B".toList "free".toList rfl
    c8res rfl

end B2C
